import Mathlib

/-!
Verification of `build_custom_image.py` (Frappe Docker custom image builder).

The development shallowly embeds the script's data model and control flow:

* a JSON value type together with a model of Python's
  `json.dumps(v, indent=2)` (with `ensure_ascii`) and of `json.loads`,
* `base64.b64encode` / decoding over byte lists, and UTF-8 encoding,
* the configuration resolution of `_load_config` (CLI defaults then
  environment overrides) and `_interactive_config`,
* `_load_apps_config` validation, `_get_build_args`,
  `_build_docker_command`, `_execute_build` and the top-level `build`
  control flow, modelled as a function from an explicit world (files,
  environment, subprocess results, interrupt point) to an outcome
  (exit code, whether a build subprocess was spawned, what was printed,
  whether cleanup ran).

Theorems at the end settle the specification claims against these
definitions.
-/

/-- JSON values as produced by Python's `json` module.  Strings are lists
of Unicode scalar values; numbers are modelled as integers (floats are out
of scope); objects are field lists in insertion order. -/
inductive Json where
  | null : Json
  | bool (b : Bool) : Json
  | num (n : Int) : Json
  | str (s : List Char) : Json
  | arr (xs : List Json) : Json
  | obj (fs : List (List Char × Json)) : Json

/-- Opening brace character (written via its code point). -/
def obrace : Char := Char.ofNat 123

/-- Closing brace character (written via its code point). -/
def cbrace : Char := Char.ofNat 125

/-- The characters of the literal `null`. -/
def nullChars : List Char := ['n', 'u', 'l', 'l']

/-- The characters of the literal `true`. -/
def trueChars : List Char := ['t', 'r', 'u', 'e']

/-- The characters of the literal `false`. -/
def falseChars : List Char := ['f', 'a', 'l', 's', 'e']

/-- Lower-case hexadecimal digit for a value below 16. -/
def hexDigit (k : Nat) : Char := Char.ofNat (if k < 10 then 48 + k else 87 + k)

/-- Four lower-case hex digits, as in Python's `\uXXXX` escapes. -/
def hex4 (n : Nat) : List Char :=
  [hexDigit (n / 4096 % 16), hexDigit (n / 256 % 16), hexDigit (n / 16 % 16), hexDigit (n % 16)]

/-- Escape of one character following Python's
`json.encoder.py_encode_basestring_ascii`: shorthand escapes for the
usual control characters, quote and backslash; characters outside
printable ASCII become `\uXXXX` (a surrogate pair beyond the BMP). -/
def escapeChar (c : Char) : List Char :=
  let n := c.toNat
  if n = 34 then ['\\', '"']
  else if n = 92 then ['\\', '\\']
  else if n = 8 then ['\\', 'b']
  else if n = 9 then ['\\', 't']
  else if n = 10 then ['\\', 'n']
  else if n = 12 then ['\\', 'f']
  else if n = 13 then ['\\', 'r']
  else if 32 ≤ n ∧ n ≤ 126 then [c]
  else if n < 65536 then '\\' :: 'u' :: hex4 n
  else '\\' :: 'u' :: hex4 (55296 + (n - 65536) / 1024) ++
       ('\\' :: 'u' :: hex4 (56320 + (n - 65536) % 1024))

/-- Escaped body of a JSON string literal. -/
def escapeString (s : List Char) : List Char := s.flatMap escapeChar

/-- Decimal digit character. -/
def digitChar (k : Nat) : Char := Char.ofNat (48 + k)

/-- Auxiliary digit expansion with explicit fuel (so that it reduces in
the kernel); the fuel is irrelevant as long as it exceeds `n`. -/
def natCharsAux (fuel : Nat) (n : Nat) : List Char :=
  match fuel with
  | 0 => []
  | fuel + 1 =>
    if n < 10 then [digitChar n]
    else natCharsAux fuel (n / 10) ++ [digitChar (n % 10)]

/-- Decimal digits of a natural number, most significant first. -/
def natChars (n : Nat) : List Char := natCharsAux (n + 1) n

theorem natCharsAux_irrel (n : Nat) : ∀ fuel fuel', n < fuel → n < fuel' →
    natCharsAux fuel n = natCharsAux fuel' n := by
  induction n using Nat.strong_induction_on with
  | _ n ih =>
    intro fuel fuel' h h'
    match fuel, fuel' with
    | f + 1, f' + 1 =>
      simp only [natCharsAux]
      by_cases h10 : n < 10
      · simp [h10]
      · simp only [h10, if_false]
        have hd : n / 10 < n := Nat.div_lt_self (by omega) (by omega)
        rw [ih (n / 10) hd f f' (by omega) (by omega)]

/-- Unfolding equation for `natChars`. -/
theorem natChars_eq (n : Nat) : natChars n =
    if n < 10 then [digitChar n] else natChars (n / 10) ++ [digitChar (n % 10)] := by
  unfold natChars
  rw [show natCharsAux (n + 1) n =
      if n < 10 then [digitChar n] else natCharsAux n (n / 10) ++ [digitChar (n % 10)] from rfl]
  by_cases h10 : n < 10
  · simp [h10]
  · simp only [h10, if_false]
    have hd : n / 10 < n := Nat.div_lt_self (by omega) (by omega)
    rw [natCharsAux_irrel (n / 10) n (n / 10 + 1) (by omega) (by omega)]

/-- Decimal rendering of an integer, as `str` of a Python `int`. -/
def intChars (n : Int) : List Char :=
  if n < 0 then '-' :: natChars n.natAbs else natChars n.toNat

/-- `n` space characters of indentation. -/
def nspaces (n : Nat) : List Char := List.replicate n ' '

mutual
/-- Model of Python's `json.dumps(v, indent=2)` at indentation level `d`:
containers put every element on its own line indented two further spaces,
keys are separated from values by `": "`, items by `","` plus newline. -/
def dumpVal (d : Nat) : Json → List Char
  | Json.null => nullChars
  | Json.bool b => if b then trueChars else falseChars
  | Json.num n => intChars n
  | Json.str s => '"' :: (escapeString s ++ ['"'])
  | Json.arr [] => ['[', ']']
  | Json.arr (x :: xs) =>
      '[' :: '\n' :: (nspaces (d + 2) ++ (dumpVal (d + 2) x ++
        (dumpItemsRest (d + 2) xs ++ ('\n' :: (nspaces d ++ [']'])))))
  | Json.obj [] => [obrace, cbrace]
  | Json.obj ((k, v) :: fs) =>
      obrace :: '\n' :: (nspaces (d + 2) ++ ('"' :: (escapeString k ++
        ('"' :: ':' :: ' ' :: (dumpVal (d + 2) v ++
          (dumpFieldsRest (d + 2) fs ++ ('\n' :: (nspaces d ++ [cbrace]))))))))

/-- Remaining array items after the first, each preceded by `",\n"` and
its indentation. -/
def dumpItemsRest (d : Nat) : List Json → List Char
  | [] => []
  | y :: ys => ',' :: '\n' :: (nspaces d ++ (dumpVal d y ++ dumpItemsRest d ys))

/-- Remaining object fields after the first. -/
def dumpFieldsRest (d : Nat) : List (List Char × Json) → List Char
  | [] => []
  | (k, v) :: gs => ',' :: '\n' :: (nspaces d ++ ('"' :: (escapeString k ++
      ('"' :: ':' :: ' ' :: (dumpVal d v ++ dumpFieldsRest d gs)))))
end

example : dumpVal 0 (Json.arr [Json.obj [(['u'], Json.str ['a'])]]) =
    '[' :: '\n' :: ' ' :: ' ' :: obrace :: '\n' :: (nspaces 4 ++
      ('"' :: 'u' :: '"' :: ':' :: ' ' :: '"' :: 'a' :: '"' :: '\n' ::
        (nspaces 2 ++ (cbrace :: '\n' :: [']'])))) := by
  decide

/-- JSON whitespace accepted by Python's parser. -/
def isWs (c : Char) : Bool := c = ' ' || c = '\t' || c = '\n' || c = '\r'

/-- Skip leading whitespace. -/
def skipWs : List Char → List Char
  | [] => []
  | c :: cs => if isWs c then skipWs cs else c :: cs

/-- Value of a hexadecimal digit character, if any. -/
def hexVal (c : Char) : Option Nat :=
  let n := c.toNat
  if 48 ≤ n ∧ n ≤ 57 then some (n - 48)
  else if 97 ≤ n ∧ n ≤ 102 then some (n - 87)
  else if 65 ≤ n ∧ n ≤ 70 then some (n - 55)
  else none

/-- Single-character escapes recognised after a backslash. -/
def unescapeChar (c : Char) : Option Char :=
  if c = '"' then some '"'
  else if c = '\\' then some '\\'
  else if c = '/' then some '/'
  else if c = 'b' then some (Char.ofNat 8)
  else if c = 'f' then some (Char.ofNat 12)
  else if c = 'n' then some '\n'
  else if c = 'r' then some (Char.ofNat 13)
  else if c = 't' then some '\t'
  else none

/-- Read four hexadecimal digits, as after `\u`. -/
def readU4 : List Char → Option (Nat × List Char)
  | h1 :: h2 :: h3 :: h4 :: cs =>
    match hexVal h1, hexVal h2, hexVal h3, hexVal h4 with
    | some a, some b, some c, some d => some (a * 4096 + b * 256 + c * 16 + d, cs)
    | _, _, _, _ => none
  | _ => none

/-- Decode a `\uXXXX` escape positioned after the `\u`, combining a
high/low surrogate escape pair into one code point as Python's
`json.decoder` does; a lone surrogate escape is rejected (it has no
scalar-value counterpart in the model). -/
def readUChar (cs : List Char) : Option (Char × List Char) :=
  match readU4 cs with
  | none => none
  | some (n, cs3) =>
    if n < 55296 ∨ 57344 ≤ n then some (Char.ofNat n, cs3)
    else if n < 56320 then
      match cs3 with
      | e5 :: e6 :: cs3b =>
        if e5 = '\\' ∧ e6 = 'u' then
          match readU4 cs3b with
          | some (m, cs4) =>
            if 56320 ≤ m ∧ m < 57344 then
              some (Char.ofNat (65536 + (n - 55296) * 1024 + (m - 56320)), cs4)
            else none
          | none => none
        else none
      | _ => none
    else none

/-- Body of a JSON string literal after the opening quote, following
Python's strict `json.decoder.py_scanstring`: returns the decoded
characters and the input after the closing quote.  Raw control
characters are rejected.  The fuel only bounds recursion; one unit is
consumed per decoded character, so any fuel exceeding the input length
is sufficient. -/
def parseStringBody : Nat → List Char → Option (List Char × List Char)
  | 0, _ => none
  | _ + 1, [] => none
  | fuel + 1, c :: cs =>
    if c = '"' then some ([], cs)
    else if c = '\\' then
      match cs with
      | [] => none
      | e :: cs2 =>
        if e = 'u' then
          match readUChar cs2 with
          | some (u, cs3) => (parseStringBody fuel cs3).map (fun p => (u :: p.1, p.2))
          | none => none
        else
          match unescapeChar e with
          | some u => (parseStringBody fuel cs2).map (fun p => (u :: p.1, p.2))
          | none => none
    else if 32 ≤ c.toNat then
      (parseStringBody fuel cs).map (fun p => (c :: p.1, p.2))
    else none

/-- Decimal digit test. -/
def isDigitCh (c : Char) : Bool := 48 ≤ c.toNat && c.toNat ≤ 57

/-- Value of a decimal digit character. -/
def digitVal (c : Char) : Nat := c.toNat - 48

/-- Consume a maximal run of decimal digits, folding into `acc`. -/
def parseNatAcc (acc : Nat) : List Char → Nat × List Char
  | [] => (acc, [])
  | c :: cs => if isDigitCh c then parseNatAcc (acc * 10 + digitVal c) cs else (acc, c :: cs)

/-- Match an expected literal character sequence, returning the rest. -/
def dropLit : List Char → List Char → Option (List Char)
  | [], cs => some cs
  | _ :: _, [] => none
  | l :: ls, c :: cs => if c = l then dropLit ls cs else none

mutual
/-- Model of Python's `json.loads` value scanner (integers only for
numbers; floats are out of scope).  `fuel` bounds the recursion depth. -/
def parseVal : Nat → List Char → Option (Json × List Char)
  | 0, _ => none
  | _ + 1, [] => none
  | fuel + 1, c :: rest =>
    if c = 'n' then (dropLit ['u', 'l', 'l'] rest).map (fun r => (Json.null, r))
    else if c = 't' then (dropLit ['r', 'u', 'e'] rest).map (fun r => (Json.bool true, r))
    else if c = 'f' then (dropLit ['a', 'l', 's', 'e'] rest).map (fun r => (Json.bool false, r))
    else if c = '"' then
      (parseStringBody (rest.length + 1) rest).map (fun p => (Json.str p.1, p.2))
    else if c = '[' then
      match skipWs rest with
      | [] => none
      | c2 :: rest2 =>
        if c2 = ']' then some (Json.arr [], rest2)
        else (parseItems fuel (c2 :: rest2)).map (fun p => (Json.arr p.1, p.2))
    else if c = obrace then
      match skipWs rest with
      | [] => none
      | c2 :: rest2 =>
        if c2 = cbrace then some (Json.obj [], rest2)
        else (parseFields fuel (c2 :: rest2)).map (fun p => (Json.obj p.1, p.2))
    else if c = '-' then
      match rest with
      | [] => none
      | c2 :: rest2 =>
        if isDigitCh c2 then
          let p := parseNatAcc 0 (c2 :: rest2)
          some (Json.num (-(p.1 : Int)), p.2)
        else none
    else if isDigitCh c then
      let p := parseNatAcc 0 (c :: rest)
      some (Json.num (p.1 : Int), p.2)
    else none

/-- Items of a non-empty array, positioned at the start of a value;
consumes through the closing bracket. -/
def parseItems : Nat → List Char → Option (List Json × List Char)
  | 0, _ => none
  | fuel + 1, cs =>
    match parseVal fuel cs with
    | none => none
    | some (v, rest) =>
      match skipWs rest with
      | [] => none
      | c :: rest2 =>
        if c = ',' then (parseItems fuel (skipWs rest2)).map (fun p => (v :: p.1, p.2))
        else if c = ']' then some ([v], rest2)
        else none

/-- Fields of a non-empty object, positioned at the opening quote of a
key; consumes through the closing brace. -/
def parseFields : Nat → List Char → Option (List (List Char × Json) × List Char)
  | 0, _ => none
  | fuel + 1, cs =>
    match cs with
    | [] => none
    | c :: rest =>
      if c = '"' then
        match parseStringBody (rest.length + 1) rest with
        | none => none
        | some (k, rest2) =>
          match skipWs rest2 with
          | [] => none
          | c2 :: rest3 =>
            if c2 = ':' then
              match parseVal fuel (skipWs rest3) with
              | none => none
              | some (v, rest4) =>
                match skipWs rest4 with
                | [] => none
                | c3 :: rest5 =>
                  if c3 = ',' then
                    (parseFields fuel (skipWs rest5)).map (fun p => ((k, v) :: p.1, p.2))
                  else if c3 = cbrace then some ([(k, v)], rest5)
                  else none
            else none
      else none
end

/-- Model of `json.loads`: parse one value surrounded by optional
whitespace, rejecting trailing data. -/
def parseJson (cs : List Char) : Option Json :=
  match parseVal (cs.length + 1) (skipWs cs) with
  | none => none
  | some (v, rest) => if skipWs rest = [] then some v else none

example : parseJson ('[' :: ']' :: []) = some (Json.arr []) := rfl
example : parseJson (dumpVal 0 (Json.arr [Json.obj [(['u'], Json.str ['a']),
    (['b'], Json.num (-12))]])) =
    some (Json.arr [Json.obj [(['u'], Json.str ['a']), (['b'], Json.num (-12))]]) := rfl

/-- The standard base64 alphabet, as used by `base64.b64encode`. -/
def b64chars : List Char :=
  ("ABCDEFGHIJKLMNOPQRSTUVWXYZabcdefghijklmnopqrstuvwxyz0123456789+/").data

/-- Character at index `i` of the base64 alphabet. -/
def b64tbl (i : Nat) : Char := b64chars.getD i 'A'

/-- Model of `base64.b64encode` over byte lists: three bytes become four
alphabet characters, with `=` padding for a short final group. -/
def b64encode : List Nat → List Char
  | [] => []
  | [b0] => [b64tbl (b0 / 4), b64tbl (b0 % 4 * 16), '=', '=']
  | [b0, b1] => [b64tbl (b0 / 4), b64tbl (b0 % 4 * 16 + b1 / 16), b64tbl (b1 % 16 * 4), '=']
  | b0 :: b1 :: b2 :: bs =>
      b64tbl (b0 / 4) :: b64tbl (b0 % 4 * 16 + b1 / 16) ::
      b64tbl (b1 % 16 * 4 + b2 / 64) :: b64tbl (b2 % 64) :: b64encode bs

/-- Index of a character in an alphabet list, if present. -/
def b64index : List Char → Char → Option Nat
  | [], _ => none
  | a :: as, c => if c = a then some 0 else (b64index as c).map (· + 1)

/-- Base64 decoding (standard alphabet, `=` padding, no whitespace). -/
def b64decode : List Char → Option (List Nat)
  | [] => some []
  | c0 :: c1 :: c2 :: c3 :: rest =>
    match b64index b64chars c0, b64index b64chars c1 with
    | some a, some b =>
      if c2 = '=' then
        if c3 = '=' ∧ rest = [] then some [a * 4 + b / 16] else none
      else
        match b64index b64chars c2 with
        | some d2 =>
          if c3 = '=' then
            if rest = [] then some [a * 4 + b / 16, b % 16 * 16 + d2 / 4] else none
          else
            match b64index b64chars c3 with
            | some e =>
              (b64decode rest).map (fun bs =>
                (a * 4 + b / 16) :: (b % 16 * 16 + d2 / 4) :: (d2 % 4 * 64 + e) :: bs)
            | none => none
        | none => none
    | _, _ => none
  | _ => none

/-- UTF-8 encoding of one scalar value, as `str.encode()` produces. -/
def utf8EncodeChar (c : Char) : List Nat :=
  let n := c.toNat
  if n < 128 then [n]
  else if n < 2048 then [192 + n / 64, 128 + n % 64]
  else if n < 65536 then [224 + n / 4096, 128 + n / 64 % 64, 128 + n % 64]
  else [240 + n / 262144, 128 + n / 4096 % 64, 128 + n / 64 % 64, 128 + n % 64]

/-- UTF-8 encoding of a character list. -/
def utf8Encode (s : List Char) : List Nat := s.flatMap utf8EncodeChar

example : b64decode (b64encode [91, 93]) = some [91, 93] := rfl
example : b64encode (utf8Encode (['[', ']'])) = ['W', '1', '0', '='] := rfl

mutual
/-- Fuel needed by the parser to re-read a dumped value. -/
def jsize : Json → Nat
  | Json.null => 1
  | Json.bool _ => 1
  | Json.num _ => 1
  | Json.str _ => 1
  | Json.arr xs => 2 + jsizeItems xs
  | Json.obj fs => 2 + jsizeFields fs

/-- Fuel needed for the items of an array. -/
def jsizeItems : List Json → Nat
  | [] => 0
  | x :: xs => 1 + jsize x + jsizeItems xs

/-- Fuel needed for the fields of an object. -/
def jsizeFields : List (List Char × Json) → Nat
  | [] => 0
  | (_, v) :: fs => 1 + jsize v + jsizeFields fs
end

theorem char_toNat_inj {c d : Char} (h : c.toNat = d.toNat) : c = d := by
  have hc := Char.ofNat_toNat c
  rw [h, Char.ofNat_toNat] at hc
  exact hc.symm

theorem char_ne {c d : Char} (h : c.toNat ≠ d.toNat) : c ≠ d :=
  fun he => h (he ▸ rfl)

theorem char_valid (c : Char) : c.toNat < 55296 ∨ (57343 < c.toNat ∧ c.toNat < 1114112) :=
  c.valid

theorem skipWs_ws {c : Char} (h : isWs c = true) (cs : List Char) :
    skipWs (c :: cs) = skipWs cs := by simp [skipWs, h]

theorem skipWs_nws {c : Char} (h : isWs c = false) (cs : List Char) :
    skipWs (c :: cs) = c :: cs := by simp [skipWs, h]

theorem skipWs_nspaces (n : Nat) (cs : List Char) :
    skipWs (nspaces n ++ cs) = skipWs cs := by
  induction n with
  | zero => simp [nspaces]
  | succ n ih =>
    have : nspaces (n + 1) = ' ' :: nspaces n := by simp [nspaces, List.replicate_succ]
    rw [this, List.cons_append, skipWs_ws (by decide)]
    exact ih

theorem isDigitCh_iff {c : Char} : isDigitCh c = true ↔ 48 ≤ c.toNat ∧ c.toNat ≤ 57 := by
  simp [isDigitCh]

/-- A decimal digit character is not any of the structural characters the
scanner dispatches on, and is not whitespace. -/
theorem digit_not_special {c : Char} (h : isDigitCh c = true) :
    c ≠ 'n' ∧ c ≠ 't' ∧ c ≠ 'f' ∧ c ≠ '"' ∧ c ≠ '[' ∧ c ≠ obrace ∧ c ≠ '-' ∧
    isWs c = false ∧ c ≠ ']' ∧ c ≠ cbrace ∧ c ≠ ',' ∧ c ≠ ':' := by
  rw [isDigitCh_iff] at h
  have e1 : ('n' : Char).toNat = 110 := rfl
  have e2 : ('t' : Char).toNat = 116 := rfl
  have e3 : ('f' : Char).toNat = 102 := rfl
  have e4 : ('"' : Char).toNat = 34 := rfl
  have e5 : ('[' : Char).toNat = 91 := rfl
  have e6 : obrace.toNat = 123 := rfl
  have e7 : ('-' : Char).toNat = 45 := rfl
  have e8 : (']' : Char).toNat = 93 := rfl
  have e9 : cbrace.toNat = 125 := rfl
  have e10 : (',' : Char).toNat = 44 := rfl
  have e11 : (':' : Char).toNat = 58 := rfl
  have w1 : c ≠ ' ' := char_ne (by have : (' ' : Char).toNat = 32 := rfl; omega)
  have w2 : c ≠ '\t' := char_ne (by have : ('\t' : Char).toNat = 9 := rfl; omega)
  have w3 : c ≠ '\n' := char_ne (by have : ('\n' : Char).toNat = 10 := rfl; omega)
  have w4 : c ≠ '\r' := char_ne (by have : ('\r' : Char).toNat = 13 := rfl; omega)
  refine ⟨char_ne (by omega), char_ne (by omega), char_ne (by omega), char_ne (by omega),
    char_ne (by omega), char_ne (by omega), char_ne (by omega), ?_,
    char_ne (by omega), char_ne (by omega), char_ne (by omega), char_ne (by omega)⟩
  simp [isWs, w1, w2, w3, w4]

theorem hexVal_hexDigit (k : Nat) (h : k < 16) : hexVal (hexDigit k) = some k := by
  interval_cases k <;> rfl

theorem readU4_hex4 (n : Nat) (hn : n < 65536) (cs : List Char) :
    readU4 (hex4 n ++ cs) = some (n, cs) := by
  have ha := hexVal_hexDigit (n / 4096 % 16) (by omega)
  have hb := hexVal_hexDigit (n / 256 % 16) (by omega)
  have hc := hexVal_hexDigit (n / 16 % 16) (by omega)
  have hd := hexVal_hexDigit (n % 16) (by omega)
  have hrec : n / 4096 % 16 * 4096 + n / 256 % 16 * 256 + n / 16 % 16 * 16 + n % 16 = n := by
    omega
  simp [hex4, readU4, ha, hb, hc, hd, hrec]

theorem readUChar_bmp (n : Nat) (hn : n < 65536) (hval : n < 55296 ∨ 57344 ≤ n)
    (cs : List Char) : readUChar (hex4 n ++ cs) = some (Char.ofNat n, cs) := by
  simp [readUChar, readU4_hex4 n hn, hval]

theorem readUChar_pair (n : Nat) (h1 : 65536 ≤ n) (h2 : n < 1114112) (cs : List Char) :
    readUChar (hex4 (55296 + (n - 65536) / 1024) ++
      ('\\' :: 'u' :: (hex4 (56320 + (n - 65536) % 1024) ++ cs))) =
      some (Char.ofNat n, cs) := by
  set hi := 55296 + (n - 65536) / 1024 with hhi
  set lo := 56320 + (n - 65536) % 1024 with hlo
  have hiB : ¬(hi < 55296 ∨ 57344 ≤ hi) := by omega
  have hi2 : hi < 56320 := by omega
  have loB : 56320 ≤ lo ∧ lo < 57344 := by omega
  have hcomb : 65536 + (hi - 55296) * 1024 + (lo - 56320) = n := by omega
  have e1 : readU4 (hex4 hi ++ ('\\' :: 'u' :: (hex4 lo ++ cs))) =
      some (hi, '\\' :: 'u' :: (hex4 lo ++ cs)) := readU4_hex4 hi (by omega) _
  have e2 : readU4 (hex4 lo ++ cs) = some (lo, cs) := readU4_hex4 lo (by omega) _
  rw [readUChar, e1]
  simp only [hiB, if_false, hi2, if_true, e2, loB, hcomb]
  simp [hiB, hi2, e2, loB, hcomb]

theorem psb_quote (fuel : Nat) (cs : List Char) :
    parseStringBody (fuel + 1) ('"' :: cs) = some ([], cs) := by
  simp [parseStringBody]

theorem psb_lit {c : Char} (h32 : 32 ≤ c.toNat) (hq : c ≠ '"') (hb : c ≠ '\\')
    (fuel : Nat) (cs : List Char) :
    parseStringBody (fuel + 1) (c :: cs) =
      (parseStringBody fuel cs).map (fun p => (c :: p.1, p.2)) := by
  simp [parseStringBody, hq, hb, h32]

theorem psb_esc {e u : Char} (hu : e ≠ 'u') (he : unescapeChar e = some u)
    (fuel : Nat) (cs : List Char) :
    parseStringBody (fuel + 1) ('\\' :: e :: cs) =
      (parseStringBody fuel cs).map (fun p => (u :: p.1, p.2)) := by
  have h1 : ('\\' : Char) ≠ '"' := by decide
  simp [parseStringBody, h1, hu, he]

theorem psb_unfold_u (fuel : Nat) (X : List Char) :
    parseStringBody (fuel + 1) ('\\' :: 'u' :: X) =
      (match readUChar X with
       | some (u, cs3) => (parseStringBody fuel cs3).map (fun p => (u :: p.1, p.2))
       | none => none) := by
  have h1 : ('\\' : Char) ≠ '"' := by decide
  simp [parseStringBody, h1]

theorem psb_u (n : Nat) (hn : n < 65536) (hval : n < 55296 ∨ 57344 ≤ n)
    (fuel : Nat) (cs : List Char) :
    parseStringBody (fuel + 1) ('\\' :: 'u' :: (hex4 n ++ cs)) =
      (parseStringBody fuel cs).map (fun p => (Char.ofNat n :: p.1, p.2)) := by
  have e : readUChar (hex4 n ++ cs) = some (Char.ofNat n, cs) := readUChar_bmp n hn hval cs
  rw [psb_unfold_u, e]

theorem psb_pair (n : Nat) (h1 : 65536 ≤ n) (h2 : n < 1114112)
    (fuel : Nat) (cs : List Char) :
    parseStringBody (fuel + 1) ('\\' :: 'u' :: (hex4 (55296 + (n - 65536) / 1024) ++
      ('\\' :: 'u' :: (hex4 (56320 + (n - 65536) % 1024) ++ cs)))) =
      (parseStringBody fuel cs).map (fun p => (Char.ofNat n :: p.1, p.2)) := by
  have e : readUChar (hex4 (55296 + (n - 65536) / 1024) ++
      ('\\' :: 'u' :: (hex4 (56320 + (n - 65536) % 1024) ++ cs))) =
      some (Char.ofNat n, cs) := readUChar_pair n h1 h2 cs
  rw [psb_unfold_u, e]

theorem psb_escapeChar (c : Char) (fuel : Nat) (cs : List Char) :
    parseStringBody (fuel + 1) (escapeChar c ++ cs) =
      (parseStringBody fuel cs).map (fun p => (c :: p.1, p.2)) := by
  have hv := char_valid c
  simp only [escapeChar]
  by_cases h34 : c.toNat = 34
  · have hc : c = '"' := char_toNat_inj (by rw [h34]; rfl)
    rw [if_pos h34]
    rw [show (['\\', '"'] : List Char) ++ cs = '\\' :: '"' :: cs from rfl]
    rw [psb_esc (by decide) (show unescapeChar '"' = some '"' from rfl)]
    rw [hc]
  · rw [if_neg h34]
    by_cases h92 : c.toNat = 92
    · have hc : c = '\\' := char_toNat_inj (by rw [h92]; rfl)
      rw [if_pos h92]
      rw [show (['\\', '\\'] : List Char) ++ cs = '\\' :: '\\' :: cs from rfl]
      rw [psb_esc (by decide) (show unescapeChar '\\' = some '\\' from rfl)]
      rw [hc]
    · rw [if_neg h92]
      by_cases h8 : c.toNat = 8
      · have hc : c = Char.ofNat 8 := by rw [← Char.ofNat_toNat c, h8]
        rw [if_pos h8]
        rw [show (['\\', 'b'] : List Char) ++ cs = '\\' :: 'b' :: cs from rfl]
        rw [psb_esc (by decide) (show unescapeChar 'b' = some (Char.ofNat 8) from rfl)]
        rw [← hc]
      · rw [if_neg h8]
        by_cases h9 : c.toNat = 9
        · have hc : c = '\t' := char_toNat_inj (by rw [h9]; rfl)
          rw [if_pos h9]
          rw [show (['\\', 't'] : List Char) ++ cs = '\\' :: 't' :: cs from rfl]
          rw [psb_esc (by decide) (show unescapeChar 't' = some '\t' from rfl)]
          rw [hc]
        · rw [if_neg h9]
          by_cases h10 : c.toNat = 10
          · have hc : c = '\n' := char_toNat_inj (by rw [h10]; rfl)
            rw [if_pos h10]
            rw [show (['\\', 'n'] : List Char) ++ cs = '\\' :: 'n' :: cs from rfl]
            rw [psb_esc (by decide) (show unescapeChar 'n' = some '\n' from rfl)]
            rw [hc]
          · rw [if_neg h10]
            by_cases h12 : c.toNat = 12
            · have hc : c = Char.ofNat 12 := by rw [← Char.ofNat_toNat c, h12]
              rw [if_pos h12]
              rw [show (['\\', 'f'] : List Char) ++ cs = '\\' :: 'f' :: cs from rfl]
              rw [psb_esc (by decide) (show unescapeChar 'f' = some (Char.ofNat 12) from rfl)]
              rw [← hc]
            · rw [if_neg h12]
              by_cases h13 : c.toNat = 13
              · have hc : c = Char.ofNat 13 := by rw [← Char.ofNat_toNat c, h13]
                rw [if_pos h13]
                rw [show (['\\', 'r'] : List Char) ++ cs = '\\' :: 'r' :: cs from rfl]
                rw [psb_esc (by decide)
                  (show unescapeChar 'r' = some (Char.ofNat 13) from rfl)]
                rw [← hc]
              · rw [if_neg h13]
                have vq : ('"' : Char).toNat = 34 := rfl
                have vb : ('\\' : Char).toNat = 92 := rfl
                by_cases hpr : 32 ≤ c.toNat ∧ c.toNat ≤ 126
                · rw [if_pos hpr]
                  rw [show ([c] : List Char) ++ cs = c :: cs from rfl]
                  exact psb_lit hpr.1 (char_ne (by omega)) (char_ne (by omega)) fuel cs
                · rw [if_neg hpr]
                  by_cases h64 : c.toNat < 65536
                  · rw [if_pos h64]
                    rw [show ('\\' :: 'u' :: hex4 c.toNat) ++ cs =
                      '\\' :: 'u' :: (hex4 c.toNat ++ cs) from by simp]
                    rw [psb_u c.toNat h64 (by omega), Char.ofNat_toNat]
                  · rw [if_neg h64]
                    rw [show (('\\' :: 'u' :: hex4 (55296 + (c.toNat - 65536) / 1024)) ++
                        ('\\' :: 'u' :: hex4 (56320 + (c.toNat - 65536) % 1024))) ++ cs =
                      '\\' :: 'u' :: (hex4 (55296 + (c.toNat - 65536) / 1024) ++
                        ('\\' :: 'u' :: (hex4 (56320 + (c.toNat - 65536) % 1024) ++ cs)))
                      from by simp]
                    rw [psb_pair c.toNat (by omega) (by omega), Char.ofNat_toNat]

/-- Round trip for string bodies: parsing an escaped string body followed
by the closing quote recovers the original characters, for any
sufficient fuel. -/
theorem psb_escapeString : ∀ (s : List Char) (fuel : Nat) (rest : List Char),
    s.length < fuel →
    parseStringBody fuel (escapeString s ++ ('"' :: rest)) = some (s, rest) := by
  intro s
  induction s with
  | nil =>
    intro fuel rest h
    match fuel, h with
    | f + 1, _ => simpa [escapeString] using psb_quote f rest
  | cons c s ih =>
    intro fuel rest h
    match fuel, h with
    | f + 1, h =>
      rw [show escapeString (c :: s) = escapeChar c ++ escapeString s from by
        simp [escapeString]]
      rw [List.append_assoc, psb_escapeChar c f,
        ih f rest (by simp [List.length_cons] at h; omega)]
      rfl

theorem digitVal_digitChar (k : Nat) (h : k < 10) : digitVal (digitChar k) = k := by
  interval_cases k <;> rfl

theorem isDigitCh_digitChar (k : Nat) (h : k < 10) : isDigitCh (digitChar k) = true := by
  interval_cases k <;> rfl

theorem natChars_all_digits : ∀ n : Nat, ∀ c ∈ natChars n, isDigitCh c = true := by
  intro n
  induction n using Nat.strong_induction_on with
  | _ n ih =>
    intro c hc
    rw [natChars_eq] at hc
    by_cases h10 : n < 10
    · simp [h10] at hc
      rw [hc]
      exact isDigitCh_digitChar n h10
    · simp [h10] at hc
      rcases hc with hc | hc
      · exact ih (n / 10) (Nat.div_lt_self (by omega) (by omega)) c hc
      · rw [hc]
        exact isDigitCh_digitChar (n % 10) (by omega)

theorem natChars_head : ∀ n : Nat, ∃ c cs, natChars n = c :: cs ∧ isDigitCh c = true := by
  intro n
  induction n using Nat.strong_induction_on with
  | _ n ih =>
    rw [natChars_eq]
    by_cases h10 : n < 10
    · exact ⟨digitChar n, [], by simp [h10], isDigitCh_digitChar n h10⟩
    · obtain ⟨c, cs, hc, hd⟩ := ih (n / 10) (Nat.div_lt_self (by omega) (by omega))
      exact ⟨c, cs ++ [digitChar (n % 10)], by simp [h10, hc], hd⟩

/-- Condition on what may follow a rendered number so that the digit
scanner stops exactly at its end. -/
def restOk (rest : List Char) : Prop :=
  rest = [] ∨ ∃ r rs, rest = r :: rs ∧ isDigitCh r = false

theorem parseNatAcc_append : ∀ (ds : List Char) (acc : Nat) (rest : List Char),
    (∀ c ∈ ds, isDigitCh c = true) → restOk rest →
    parseNatAcc acc (ds ++ rest) =
      (ds.foldl (fun a c => a * 10 + digitVal c) acc, rest) := by
  intro ds
  induction ds with
  | nil =>
    intro acc rest _ hrest
    rcases hrest with h | ⟨r, rs, hr, hd⟩
    · simp [h, parseNatAcc]
    · simp [hr, parseNatAcc, hd]
  | cons c ds ih =>
    intro acc rest hds hrest
    have hc : isDigitCh c = true := hds c (by simp)
    rw [List.cons_append]
    rw [show parseNatAcc acc (c :: (ds ++ rest)) =
      parseNatAcc (acc * 10 + digitVal c) (ds ++ rest) from by simp [parseNatAcc, hc]]
    rw [ih _ rest (fun x hx => hds x (by simp [hx])) hrest]
    simp

theorem foldl_natChars : ∀ n acc : Nat,
    (natChars n).foldl (fun a c => a * 10 + digitVal c) acc =
      acc * 10 ^ (natChars n).length + n := by
  intro n
  induction n using Nat.strong_induction_on with
  | _ n ih =>
    intro acc
    rw [natChars_eq]
    by_cases h10 : n < 10
    · simp [h10, digitVal_digitChar n h10]
    · simp only [h10, if_false]
      rw [List.foldl_append, ih (n / 10) (Nat.div_lt_self (by omega) (by omega)) acc]
      simp only [List.foldl_cons, List.foldl_nil, List.length_append, List.length_cons,
        List.length_nil]
      rw [digitVal_digitChar (n % 10) (by omega)]
      rw [pow_succ, ← mul_assoc]
      generalize acc * 10 ^ (natChars (n / 10)).length = A
      omega

theorem parseNat_natChars (n : Nat) (rest : List Char) (hrest : restOk rest) :
    parseNatAcc 0 (natChars n ++ rest) = (n, rest) := by
  rw [parseNatAcc_append (natChars n) 0 rest (natChars_all_digits n) hrest, foldl_natChars]
  simp

theorem dropLit_append (lit cs : List Char) : dropLit lit (lit ++ cs) = some cs := by
  induction lit with
  | nil => simp [dropLit]
  | cons l ls ih => simp [dropLit, ih]

theorem escapeChar_length_pos (c : Char) : 1 ≤ (escapeChar c).length := by
  simp only [escapeChar]
  split_ifs <;> simp [hex4]

theorem escapeString_length (s : List Char) : s.length ≤ (escapeString s).length := by
  induction s with
  | nil => simp [escapeString]
  | cons c s ih =>
    have h := escapeChar_length_pos c
    simp only [escapeString, List.flatMap_cons, List.length_append, List.length_cons] at ih ⊢
    omega

theorem jsize_pos (v : Json) : 1 ≤ jsize v := by
  cases v <;> simp [jsize] <;> omega

theorem jsizeItems_pos (x : Json) (xs : List Json) : 1 ≤ jsizeItems (x :: xs) := by
  simp [jsizeItems]
  omega

theorem jsizeFields_pos (k : List Char) (v : Json) (fs : List (List Char × Json)) :
    1 ≤ jsizeFields ((k, v) :: fs) := by
  simp [jsizeFields]
  omega

theorem dumpVal_head (d : Nat) (v : Json) :
    ∃ c t, dumpVal d v = c :: t ∧ isWs c = false ∧ c ≠ ']' ∧ c ≠ cbrace := by
  cases v with
  | null => exact ⟨'n', ['u', 'l', 'l'], rfl, by decide, by decide, by decide⟩
  | bool b =>
    cases b with
    | true => exact ⟨'t', ['r', 'u', 'e'], rfl, by decide, by decide, by decide⟩
    | false => exact ⟨'f', ['a', 'l', 's', 'e'], rfl, by decide, by decide, by decide⟩
  | num n =>
    by_cases hn : n < 0
    · refine ⟨'-', natChars n.natAbs, ?_, by decide, by decide, by decide⟩
      show intChars n = _
      simp [intChars, hn]
    · obtain ⟨c, cs, hc, hd⟩ := natChars_head n.toNat
      obtain ⟨_, _, _, _, _, _, _, hw, h9, h10, _, _⟩ := digit_not_special hd
      refine ⟨c, cs, ?_, hw, h9, h10⟩
      show intChars n = _
      rw [intChars, if_neg hn, hc]
  | str s => exact ⟨'"', escapeString s ++ ['"'], rfl, by decide, by decide, by decide⟩
  | arr xs =>
    cases xs with
    | nil => exact ⟨'[', [']'], rfl, by decide, by decide, by decide⟩
    | cons x xs =>
      exact ⟨'[', '\n' :: (nspaces (d + 2) ++ (dumpVal (d + 2) x ++
        (dumpItemsRest (d + 2) xs ++ ('\n' :: (nspaces d ++ [']']))))), rfl,
        by decide, by decide, by decide⟩
  | obj fs =>
    cases fs with
    | nil => exact ⟨obrace, [cbrace], rfl, by decide, by decide, by decide⟩
    | cons f fs =>
      obtain ⟨k, v⟩ := f
      exact ⟨obrace, '\n' :: (nspaces (d + 2) ++ ('"' :: (escapeString k ++
        ('"' :: ':' :: ' ' :: (dumpVal (d + 2) v ++ (dumpFieldsRest (d + 2) fs ++
          ('\n' :: (nspaces d ++ [cbrace])))))))), rfl, by decide, by decide, by decide⟩

theorem skipWs_dump (d : Nat) (v : Json) (rest : List Char) :
    skipWs (dumpVal d v ++ rest) = dumpVal d v ++ rest := by
  obtain ⟨c, t, hc, hw, _, _⟩ := dumpVal_head d v
  rw [hc, List.cons_append, skipWs_nws hw, ← List.cons_append]

/-- Closed character facts involving the brace characters, which are not
written as literals. -/
theorem brace_facts :
    obrace ≠ 'n' ∧ obrace ≠ 't' ∧ obrace ≠ 'f' ∧ obrace ≠ '"' ∧ obrace ≠ '[' ∧
    isWs obrace = false ∧ isWs cbrace = false ∧ cbrace ≠ ',' ∧ ('"' : Char) ≠ cbrace ∧
    ('-' : Char) ≠ obrace ∧ cbrace ≠ ']' := by
  refine ⟨?_, ?_, ?_, ?_, ?_, ?_, ?_, ?_, ?_, ?_, ?_⟩ <;> decide

/-- Main round-trip induction: with enough fuel, the scanner re-reads any
dumped value, any dumped non-empty item list and any dumped non-empty
field list. -/
theorem parse_dump_main : ∀ fuel : Nat,
    (∀ (v : Json) (d : Nat) (rest : List Char), jsize v ≤ fuel → restOk rest →
      parseVal fuel (dumpVal d v ++ rest) = some (v, rest)) ∧
    (∀ (x : Json) (xs : List Json) (d : Nat) (rest : List Char),
      jsizeItems (x :: xs) ≤ fuel →
      parseItems fuel (dumpVal d x ++ (dumpItemsRest d xs ++
        ('\n' :: (nspaces (d - 2) ++ (']' :: rest))))) = some (x :: xs, rest)) ∧
    (∀ (k : List Char) (v : Json) (fs : List (List Char × Json)) (d : Nat)
      (rest : List Char), jsizeFields ((k, v) :: fs) ≤ fuel →
      parseFields fuel ('"' :: (escapeString k ++ ('"' :: ':' :: ' ' ::
        (dumpVal d v ++ (dumpFieldsRest d fs ++
          ('\n' :: (nspaces (d - 2) ++ (cbrace :: rest)))))))) = some ((k, v) :: fs, rest)) := by
  intro fuel
  induction fuel with
  | zero =>
    refine ⟨?_, ?_, ?_⟩
    · intro v d rest hs _
      exact absurd hs (by have := jsize_pos v; omega)
    · intro x xs d rest hs
      exact absurd hs (by have := jsizeItems_pos x xs; omega)
    · intro k v fs d rest hs
      exact absurd hs (by have := jsizeFields_pos k v fs; omega)
  | succ fuel ih =>
    obtain ⟨ih1, ih2, ih3⟩ := ih
    refine ⟨?_, ?_, ?_⟩
    · -- values
      intro v d rest hs hrest
      cases v with
      | null => simp [dumpVal, nullChars, parseVal, dropLit]
      | bool b =>
        cases b with
        | true => simp [dumpVal, trueChars, parseVal, dropLit]
        | false => simp [dumpVal, falseChars, parseVal, dropLit]
      | str s =>
        have hlen : s.length < (escapeString s ++ ('"' :: rest)).length + 1 := by
          have := escapeString_length s
          simp only [List.length_append, List.length_cons]
          omega
        have hp := psb_escapeString s ((escapeString s ++ ('"' :: rest)).length + 1) rest hlen
        simp only [List.length_append, List.length_cons] at hp
        rw [show dumpVal d (Json.str s) ++ rest = '"' :: (escapeString s ++ ('"' :: rest))
          from by simp [dumpVal]]
        simp [parseVal, hp]
      | num n =>
        by_cases hn : n < 0
        · obtain ⟨c, cs, hc, hd⟩ := natChars_head n.natAbs
          have hsplit : natChars n.natAbs ++ rest = c :: (cs ++ rest) := by
            rw [hc]; simp
          have hpn : parseNatAcc 0 (c :: (cs ++ rest)) = (n.natAbs, rest) := by
            rw [← hsplit]; exact parseNat_natChars _ rest hrest
          rw [show dumpVal d (Json.num n) ++ rest = '-' :: (natChars n.natAbs ++ rest)
            from by simp [dumpVal, intChars, hn]]
          rw [hsplit]
          obtain ⟨_, _, _, _, _, _, _, _, _, hmo, _⟩ := brace_facts
          have habs : -|n| = n := by
            rw [abs_of_nonpos (le_of_lt hn), neg_neg]
          simp [parseVal, hd, hpn, hmo, habs, show (-((n.natAbs : Int))) = n from by omega]
        · obtain ⟨c, cs, hc, hd⟩ := natChars_head n.toNat
          obtain ⟨hn1, hn2, hn3, hn4, hn5, hn6, hn7, _, _, _, _, _⟩ := digit_not_special hd
          have hsplit : natChars n.toNat ++ rest = c :: (cs ++ rest) := by
            rw [hc]; simp
          have hpn : parseNatAcc 0 (c :: (cs ++ rest)) = (n.toNat, rest) := by
            rw [← hsplit]; exact parseNat_natChars _ rest hrest
          rw [show dumpVal d (Json.num n) ++ rest = natChars n.toNat ++ rest
            from by simp [dumpVal, intChars, hn]]
          rw [hsplit]
          simp [parseVal, hn1, hn2, hn3, hn4, hn5, hn6, hn7, hd, hpn,
            show ((n.toNat : Int)) = n from by omega]
      | arr xs =>
        cases xs with
        | nil =>
          rw [show dumpVal d (Json.arr []) ++ rest = '[' :: ']' :: rest from by
            simp [dumpVal]]
          simp [parseVal, skipWs, isWs]
        | cons x xs =>
          have hsz : jsizeItems (x :: xs) ≤ fuel := by
            simp [jsize, jsizeItems] at hs ⊢
            have := jsize_pos x
            omega
          obtain ⟨c2, t2, hc2, hw2, hnb2, hnc2⟩ := dumpVal_head (d + 2) x
          have hshape : dumpVal (d + 2) x ++ (dumpItemsRest (d + 2) xs ++
              ('\n' :: (nspaces d ++ (']' :: rest)))) =
              c2 :: (t2 ++ (dumpItemsRest (d + 2) xs ++
                ('\n' :: (nspaces d ++ (']' :: rest))))) := by
            rw [hc2]; simp
          have hskip : skipWs ('\n' :: (nspaces (d + 2) ++ (dumpVal (d + 2) x ++
              (dumpItemsRest (d + 2) xs ++ ('\n' :: (nspaces d ++ (']' :: rest))))))) =
              c2 :: (t2 ++ (dumpItemsRest (d + 2) xs ++
                ('\n' :: (nspaces d ++ (']' :: rest))))) := by
            rw [skipWs_ws (by decide), skipWs_nspaces, hshape, skipWs_nws hw2]
          have hitems := ih2 x xs (d + 2) rest hsz
          rw [show (d + 2) - 2 = d from by omega] at hitems
          rw [hshape] at hitems
          rw [show dumpVal d (Json.arr (x :: xs)) ++ rest =
            '[' :: '\n' :: (nspaces (d + 2) ++ (dumpVal (d + 2) x ++
              (dumpItemsRest (d + 2) xs ++ ('\n' :: (nspaces d ++ (']' :: rest))))))
            from by simp [dumpVal]]
          simp [parseVal, hskip, hnb2, hitems]
      | obj fs =>
        cases fs with
        | nil =>
          rw [show dumpVal d (Json.obj []) ++ rest = obrace :: cbrace :: rest from by
            simp [dumpVal]]
          obtain ⟨hb1, hb2, hb3, hb4, hb5, hb6, hb7, hb8, hb9, hb10, hb11⟩ := brace_facts
          simp [parseVal, hb1, hb2, hb3, hb4, hb5, skipWs_nws hb7]
        | cons f fs =>
          obtain ⟨k, v⟩ := f
          have hsz : jsizeFields ((k, v) :: fs) ≤ fuel := by
            simp [jsize, jsizeFields] at hs ⊢
            have := jsize_pos v
            omega
          have hfields := ih3 k v fs (d + 2) rest (by simpa using hsz)
          rw [show (d + 2) - 2 = d from by omega] at hfields
          have hskip : skipWs ('\n' :: (nspaces (d + 2) ++ ('"' :: (escapeString k ++
              ('"' :: ':' :: ' ' :: (dumpVal (d + 2) v ++ (dumpFieldsRest (d + 2) fs ++
                ('\n' :: (nspaces d ++ (cbrace :: rest)))))))))) =
              '"' :: (escapeString k ++ ('"' :: ':' :: ' ' :: (dumpVal (d + 2) v ++
                (dumpFieldsRest (d + 2) fs ++ ('\n' :: (nspaces d ++ (cbrace :: rest))))))) := by
            rw [skipWs_ws (by decide), skipWs_nspaces, skipWs_nws (by decide)]
          rw [show dumpVal d (Json.obj ((k, v) :: fs)) ++ rest =
            obrace :: '\n' :: (nspaces (d + 2) ++ ('"' :: (escapeString k ++
              ('"' :: ':' :: ' ' :: (dumpVal (d + 2) v ++ (dumpFieldsRest (d + 2) fs ++
                ('\n' :: (nspaces d ++ (cbrace :: rest)))))))))
            from by simp [dumpVal]]
          obtain ⟨hb1, hb2, hb3, hb4, hb5, hb6, hb7, hb8, hb9, hb10, hb11⟩ := brace_facts
          simp [parseVal, hb1, hb2, hb3, hb4, hb5, hb9, hskip, hfields]
    · -- items
      intro x xs d rest hsz
      have hjx : jsize x ≤ fuel := by
        simp [jsizeItems] at hsz
        omega
      cases xs with
      | nil =>
        have hrest' : restOk ('\n' :: (nspaces (d - 2) ++ (']' :: rest))) :=
          Or.inr ⟨'\n', _, rfl, by decide⟩
        have h1 := ih1 x d ('\n' :: (nspaces (d - 2) ++ (']' :: rest))) hjx hrest'
        have hsk : skipWs ('\n' :: (nspaces (d - 2) ++ (']' :: rest))) = ']' :: rest := by
          rw [skipWs_ws (by decide), skipWs_nspaces, skipWs_nws (by decide)]
        rw [show dumpVal d x ++ (dumpItemsRest d [] ++
            ('\n' :: (nspaces (d - 2) ++ (']' :: rest)))) =
          dumpVal d x ++ ('\n' :: (nspaces (d - 2) ++ (']' :: rest))) from by
            simp [dumpItemsRest]]
        simp [parseItems, h1, hsk]
      | cons y ys =>
        have hrest' : restOk (',' :: ('\n' :: (nspaces d ++ (dumpVal d y ++
            (dumpItemsRest d ys ++ ('\n' :: (nspaces (d - 2) ++ (']' :: rest)))))))) :=
          Or.inr ⟨',', _, rfl, by decide⟩
        have h1 := ih1 x d _ hjx hrest'
        have hys : jsizeItems (y :: ys) ≤ fuel := by
          simp [jsizeItems] at hsz ⊢
          have := jsize_pos x
          omega
        have hnext := ih2 y ys d rest hys
        have hsk2 : skipWs ('\n' :: (nspaces d ++ (dumpVal d y ++
            (dumpItemsRest d ys ++ ('\n' :: (nspaces (d - 2) ++ (']' :: rest))))))) =
            dumpVal d y ++ (dumpItemsRest d ys ++
              ('\n' :: (nspaces (d - 2) ++ (']' :: rest)))) := by
          rw [skipWs_ws (by decide), skipWs_nspaces, skipWs_dump]
        rw [show dumpVal d x ++ (dumpItemsRest d (y :: ys) ++
            ('\n' :: (nspaces (d - 2) ++ (']' :: rest)))) =
          dumpVal d x ++ (',' :: ('\n' :: (nspaces d ++ (dumpVal d y ++
            (dumpItemsRest d ys ++ ('\n' :: (nspaces (d - 2) ++ (']' :: rest))))))))
          from by simp [dumpItemsRest]]
        simp [parseItems, h1, skipWs_nws (show isWs ',' = false from by decide), hsk2, hnext]
    · -- fields
      intro k v fs d rest hsz
      have hjv : jsize v ≤ fuel := by
        simp [jsizeFields] at hsz
        omega
      cases fs with
      | nil =>
        have hrest' : restOk ('\n' :: (nspaces (d - 2) ++ (cbrace :: rest))) :=
          Or.inr ⟨'\n', _, rfl, by decide⟩
        have h1 := ih1 v d ('\n' :: (nspaces (d - 2) ++ (cbrace :: rest))) hjv hrest'
        have hsk : skipWs ('\n' :: (nspaces (d - 2) ++ (cbrace :: rest))) = cbrace :: rest := by
          rw [skipWs_ws (by decide), skipWs_nspaces, skipWs_nws (by decide)]
        have hskipv : skipWs (' ' :: (dumpVal d v ++
            ('\n' :: (nspaces (d - 2) ++ (cbrace :: rest))))) =
            dumpVal d v ++ ('\n' :: (nspaces (d - 2) ++ (cbrace :: rest))) := by
          rw [skipWs_ws (by decide)]
          exact skipWs_dump d v _
        have hlen : k.length < (escapeString k ++ ('"' :: ':' :: ' ' ::
            (dumpVal d v ++ ('\n' :: (nspaces (d - 2) ++ (cbrace :: rest)))))).length + 1 := by
          have := escapeString_length k
          simp only [List.length_append, List.length_cons]
          omega
        obtain ⟨hb1, hb2, hb3, hb4, hb5, hb6, hb7, hb8, hb9, hb10, hb11⟩ := brace_facts
        rw [show ('"' :: (escapeString k ++ ('"' :: ':' :: ' ' ::
            (dumpVal d v ++ (dumpFieldsRest d [] ++
              ('\n' :: (nspaces (d - 2) ++ (cbrace :: rest)))))))) =
          ('"' :: (escapeString k ++ ('"' :: ':' :: ' ' ::
            (dumpVal d v ++ ('\n' :: (nspaces (d - 2) ++ (cbrace :: rest)))))))
          from by simp [dumpFieldsRest]]
        simp only [parseFields]
        rw [psb_escapeString k _ _ hlen]
        simp [skipWs_nws (show isWs ':' = false from by decide), hskipv, h1, hsk, hb8, hb11]
      | cons g gs =>
        obtain ⟨k2, v2⟩ := g
        have hgs : jsizeFields ((k2, v2) :: gs) ≤ fuel := by
          simp [jsizeFields] at hsz ⊢
          have := jsize_pos v
          omega
        have hnext := ih3 k2 v2 gs d rest hgs
        have hrest' : restOk (',' :: ('\n' :: (nspaces d ++ ('"' :: (escapeString k2 ++
            ('"' :: ':' :: ' ' :: (dumpVal d v2 ++ (dumpFieldsRest d gs ++
              ('\n' :: (nspaces (d - 2) ++ (cbrace :: rest))))))))))) :=
          Or.inr ⟨',', _, rfl, by decide⟩
        have h1 := ih1 v d _ hjv hrest'
        have hskipv : skipWs (' ' :: (dumpVal d v ++ (',' :: ('\n' :: (nspaces d ++
            ('"' :: (escapeString k2 ++ ('"' :: ':' :: ' ' :: (dumpVal d v2 ++
              (dumpFieldsRest d gs ++ ('\n' :: (nspaces (d - 2) ++
                (cbrace :: rest))))))))))))) =
            dumpVal d v ++ (',' :: ('\n' :: (nspaces d ++ ('"' :: (escapeString k2 ++
              ('"' :: ':' :: ' ' :: (dumpVal d v2 ++ (dumpFieldsRest d gs ++
                ('\n' :: (nspaces (d - 2) ++ (cbrace :: rest))))))))))) := by
          rw [skipWs_ws (by decide)]
          exact skipWs_dump d v _
        have hsk2 : skipWs ('\n' :: (nspaces d ++ ('"' :: (escapeString k2 ++
            ('"' :: ':' :: ' ' :: (dumpVal d v2 ++ (dumpFieldsRest d gs ++
              ('\n' :: (nspaces (d - 2) ++ (cbrace :: rest)))))))))) =
            '"' :: (escapeString k2 ++ ('"' :: ':' :: ' ' :: (dumpVal d v2 ++
              (dumpFieldsRest d gs ++ ('\n' :: (nspaces (d - 2) ++ (cbrace :: rest))))))) := by
          rw [skipWs_ws (by decide), skipWs_nspaces, skipWs_nws (by decide)]
        have hlen : k.length < (escapeString k ++ ('"' :: ':' :: ' ' ::
            (dumpVal d v ++ (',' :: ('\n' :: (nspaces d ++ ('"' :: (escapeString k2 ++
              ('"' :: ':' :: ' ' :: (dumpVal d v2 ++ (dumpFieldsRest d gs ++
                ('\n' :: (nspaces (d - 2) ++ (cbrace :: rest)))))))))))))).length + 1 := by
          have := escapeString_length k
          simp only [List.length_append, List.length_cons]
          omega
        obtain ⟨hb1, hb2, hb3, hb4, hb5, hb6, hb7, hb8, hb9, hb10, hb11⟩ := brace_facts
        rw [show ('"' :: (escapeString k ++ ('"' :: ':' :: ' ' ::
            (dumpVal d v ++ (dumpFieldsRest d ((k2, v2) :: gs) ++
              ('\n' :: (nspaces (d - 2) ++ (cbrace :: rest)))))))) =
          ('"' :: (escapeString k ++ ('"' :: ':' :: ' ' ::
            (dumpVal d v ++ (',' :: ('\n' :: (nspaces d ++ ('"' :: (escapeString k2 ++
              ('"' :: ':' :: ' ' :: (dumpVal d v2 ++ (dumpFieldsRest d gs ++
                ('\n' :: (nspaces (d - 2) ++ (cbrace :: rest)))))))))))))))
          from by simp [dumpFieldsRest]]
        simp only [parseFields]
        rw [psb_escapeString k _ _ hlen]
        simp [skipWs_nws (show isWs ':' = false from by decide),
          skipWs_nws (show isWs ',' = false from by decide), hskipv, h1, hsk2, hnext]

/-- The fuel needed by the scanner is bounded by the length of the dumped
text (plus one), so `parseJson`'s length-derived fuel always suffices. -/
theorem jsize_le_aux : ∀ N : Nat,
    (∀ v : Json, sizeOf v < N → ∀ d, jsize v ≤ (dumpVal d v).length + 1) ∧
    (∀ xs : List Json, sizeOf xs < N → ∀ d, jsizeItems xs ≤ (dumpItemsRest d xs).length + 1) ∧
    (∀ fs : List (List Char × Json), sizeOf fs < N → ∀ d,
      jsizeFields fs ≤ (dumpFieldsRest d fs).length + 1) := by
  intro N
  induction N with
  | zero =>
    refine ⟨?_, ?_, ?_⟩ <;> intro a ha <;> exact absurd ha (by omega)
  | succ N ih =>
    obtain ⟨ih1, ih2, ih3⟩ := ih
    refine ⟨?_, ?_, ?_⟩
    · intro v hv d
      cases v with
      | null => simp [jsize, dumpVal, nullChars]
      | bool b => cases b <;> simp [jsize, dumpVal, trueChars, falseChars]
      | num n => simp [jsize]
      | str s => simp [jsize, dumpVal]
      | arr xs =>
        cases xs with
        | nil => simp [jsize, jsizeItems, dumpVal]
        | cons x xs =>
          simp only [Json.arr.sizeOf_spec, List.cons.sizeOf_spec] at hv
          have h1 := ih1 x (by omega) (d + 2)
          have h2 := ih2 xs (by omega) (d + 2)
          simp only [jsize, jsizeItems, dumpVal, List.length_cons, List.length_append,
            nspaces, List.length_replicate] at h1 h2 ⊢
          omega
      | obj fs =>
        cases fs with
        | nil => simp [jsize, jsizeFields, dumpVal]
        | cons f fs =>
          obtain ⟨k, v⟩ := f
          simp only [Json.obj.sizeOf_spec, List.cons.sizeOf_spec, Prod.mk.sizeOf_spec] at hv
          have h1 := ih1 v (by omega) (d + 2)
          have h2 := ih3 fs (by omega) (d + 2)
          simp only [jsize, jsizeFields, dumpVal, List.length_cons, List.length_append,
            nspaces, List.length_replicate] at h1 h2 ⊢
          omega
    · intro xs hxs d
      cases xs with
      | nil => simp [jsizeItems, dumpItemsRest]
      | cons y ys =>
        simp only [List.cons.sizeOf_spec] at hxs
        have h1 := ih1 y (by omega) d
        have h2 := ih2 ys (by omega) d
        simp only [jsizeItems, dumpItemsRest, List.length_cons, List.length_append,
          nspaces, List.length_replicate] at h1 h2 ⊢
        omega
    · intro fs hfs d
      cases fs with
      | nil => simp [jsizeFields, dumpFieldsRest]
      | cons g gs =>
        obtain ⟨k, v⟩ := g
        simp only [List.cons.sizeOf_spec, Prod.mk.sizeOf_spec] at hfs
        have h1 := ih1 v (by omega) d
        have h2 := ih3 gs (by omega) d
        simp only [jsizeFields, dumpFieldsRest, List.length_cons, List.length_append,
          nspaces, List.length_replicate] at h1 h2 ⊢
        omega

theorem jsize_le_dump (v : Json) (d : Nat) : jsize v ≤ (dumpVal d v).length + 1 :=
  (jsize_le_aux (sizeOf v + 1)).1 v (by omega) d

/-- Serialise-then-parse round trip for the JSON model. -/
theorem parseJson_dumpVal (v : Json) : parseJson (dumpVal 0 v) = some v := by
  have h := (parse_dump_main ((dumpVal 0 v).length + 1)).1 v 0 [] (jsize_le_dump v 0)
    (Or.inl rfl)
  rw [List.append_nil] at h
  have hskip : skipWs (dumpVal 0 v) = dumpVal 0 v := by
    obtain ⟨c, t, hc, hw, _, _⟩ := dumpVal_head 0 v
    rw [hc, skipWs_nws hw]
  simp only [parseJson, hskip, h]
  simp [skipWs]

theorem b64index_tbl : ∀ i < 64, b64index b64chars (b64tbl i) = some i := by decide

theorem b64tbl_ne_eq : ∀ i < 64, b64tbl i ≠ '=' := by decide

theorem b64_roundtrip_aux : ∀ (n : Nat) (bs : List Nat), bs.length ≤ n →
    (∀ b ∈ bs, b < 256) → b64decode (b64encode bs) = some bs := by
  intro n
  induction n with
  | zero =>
    intro bs hlen _
    match bs, hlen with
    | [], _ => simp [b64encode, b64decode]
  | succ n ih =>
    intro bs hlen hb
    match bs with
    | [] => simp [b64encode, b64decode]
    | [b0] =>
      have h0 : b0 < 256 := hb b0 (by simp)
      have e1 := b64index_tbl (b0 / 4) (by omega)
      have e2 := b64index_tbl (b0 % 4 * 16) (by omega)
      simp [b64encode, b64decode, e1, e2]
      all_goals omega
    | [b0, b1] =>
      have h0 : b0 < 256 := hb b0 (by simp)
      have h1 : b1 < 256 := hb b1 (by simp)
      have e1 := b64index_tbl (b0 / 4) (by omega)
      have e2 := b64index_tbl (b0 % 4 * 16 + b1 / 16) (by omega)
      have e3 := b64index_tbl (b1 % 16 * 4) (by omega)
      have ne3 := b64tbl_ne_eq (b1 % 16 * 4) (by omega)
      simp [b64encode, b64decode, e1, e2, e3, ne3]
      all_goals (constructor <;> omega)
    | b0 :: b1 :: b2 :: bs2 =>
      have h0 : b0 < 256 := hb b0 (by simp)
      have h1 : b1 < 256 := hb b1 (by simp)
      have h2 : b2 < 256 := hb b2 (by simp)
      have e1 := b64index_tbl (b0 / 4) (by omega)
      have e2 := b64index_tbl (b0 % 4 * 16 + b1 / 16) (by omega)
      have e3 := b64index_tbl (b1 % 16 * 4 + b2 / 64) (by omega)
      have e4 := b64index_tbl (b2 % 64) (by omega)
      have ne3 := b64tbl_ne_eq (b1 % 16 * 4 + b2 / 64) (by omega)
      have ne4 := b64tbl_ne_eq (b2 % 64) (by omega)
      have hrec := ih bs2 (by simp at hlen ⊢; omega)
        (fun b hbm => hb b (by simp [hbm]))
      simp [b64encode, b64decode, e1, e2, e3, e4, ne3, ne4, hrec]
      refine ⟨by omega, by omega, by omega⟩

/-- Base64 round trip over byte lists. -/
theorem b64_roundtrip (bs : List Nat) (hb : ∀ b ∈ bs, b < 256) :
    b64decode (b64encode bs) = some bs :=
  b64_roundtrip_aux bs.length bs le_rfl hb

theorem utf8EncodeChar_lt_256 (c : Char) : ∀ b ∈ utf8EncodeChar c, b < 256 := by
  intro b hb
  have hv := char_valid c
  simp only [utf8EncodeChar] at hb
  split_ifs at hb <;> simp at hb <;> omega

/-- All UTF-8 bytes are below 256. -/
theorem utf8Encode_lt_256 (s : List Char) : ∀ b ∈ utf8Encode s, b < 256 := by
  intro b hb
  simp only [utf8Encode, List.mem_flatMap] at hb
  obtain ⟨c, _, hc⟩ := hb
  exact utf8EncodeChar_lt_256 c b hc

/-- Parsed command-line arguments with the defaults declared in
`_parse_arguments` (argparse restricts `build_method` to
`layered`/`custom`). -/
structure Args where
  apps_file : String := "apps.json"
  tag : String := "frappe_custom:latest"
  build_method : String := "layered"
  frappe_path : String := "https://github.com/frappe/frappe"
  frappe_branch : String := "version-15"
  python_version : String := "3.11.6"
  node_version : String := "20.19.2"
  debian_base : String := "bookworm"
  wkhtmltopdf_version : String := "0.12.6.1-3"
  wkhtmltopdf_distro : String := "bookworm"
  interactive : Bool := false
  dry_run : Bool := false
  verbose : Bool := false
  quiet : Bool := false

/-- The mutable `self.config` dictionary after `_load_config`; the
`apps_json_base64` entry is added later in `build`. -/
structure Config where
  apps_file : String
  tag : String
  build_method : String
  frappe_path : String
  frappe_branch : String
  python_version : String
  node_version : String
  debian_base : String
  wkhtmltopdf_version : String
  wkhtmltopdf_distro : String
  interactive : Bool
  dry_run : Bool
  verbose : Bool
  quiet : Bool
  apps_json_base64 : String

/-- `_load_config`: populate the config from the parsed arguments, then
override entries from the six recognised environment variables, in the
iteration order of `env_mappings`. -/
def load_config (a : Args) (env : String → Option String) : Config :=
  let c : Config := {
    apps_file := a.apps_file, tag := a.tag, build_method := a.build_method,
    frappe_path := a.frappe_path, frappe_branch := a.frappe_branch,
    python_version := a.python_version, node_version := a.node_version,
    debian_base := a.debian_base, wkhtmltopdf_version := a.wkhtmltopdf_version,
    wkhtmltopdf_distro := a.wkhtmltopdf_distro, interactive := a.interactive,
    dry_run := a.dry_run, verbose := a.verbose, quiet := a.quiet,
    apps_json_base64 := "" }
  let c := match env ("FRAPPE_PATH") with
    | some v => { c with frappe_path := v }
    | none => c
  let c := match env ("FRAPPE_BRANCH") with
    | some v => { c with frappe_branch := v }
    | none => c
  let c := match env ("PYTHON_VERSION") with
    | some v => { c with python_version := v }
    | none => c
  let c := match env ("NODE_VERSION") with
    | some v => { c with node_version := v }
    | none => c
  let c := match env ("DOCKER_TAG") with
    | some v => { c with tag := v }
    | none => c
  match env ("APPS_FILE") with
  | some v => { c with apps_file := v }
  | none => c

/-- The (already whitespace-stripped) answers read by
`_interactive_config`. -/
structure InteractiveAnswers where
  build_method_choice : String := ""
  apps_file : String := ""
  tag : String := ""
  frappe_branch : String := ""
  python_version : String := ""
  node_version : String := ""

/-- `_interactive_config`: overwrite config entries with the prompt
answers (the default when an answer is empty), asking for versions only
when the chosen build method is `custom`. -/
def interactive_config (c : Config) (a : InteractiveAnswers) : Config :=
  let c := { c with build_method :=
    if a.build_method_choice = "2" then "custom" else "layered" }
  let c := { c with apps_file := if a.apps_file = "" then "apps.json" else a.apps_file }
  let c := { c with tag := if a.tag = "" then "frappe_custom:latest" else a.tag }
  let c := { c with frappe_branch :=
    if a.frappe_branch = "" then "version-15" else a.frappe_branch }
  if c.build_method = "custom" then
    let c := { c with python_version :=
      if a.python_version = "" then "3.11.6" else a.python_version }
    { c with node_version := if a.node_version = "" then "20.19.2" else a.node_version }
  else c

/-- The `url` key. -/
def urlKey : List Char := ['u', 'r', 'l']

/-- The `branch` key. -/
def branchKey : List Char := ['b', 'r', 'a', 'n', 'c', 'h']

/-- Key membership in an object's field list (Python's `'k' in app`). -/
def hasKey (fs : List (List Char × Json)) (k : List Char) : Bool :=
  fs.any (fun p => p.1 = k)

/-- The per-entry validation of `_load_apps_config`: each entry must be an
object containing `url` and `branch` keys. -/
def validApp : Json → Bool
  | Json.obj fs => hasKey fs urlKey && hasKey fs branchKey
  | _ => false

/-- `_load_apps_config`: read the apps file, parse it as JSON, require a
JSON array whose entries all pass `validApp`.  `none` collapses the
distinct failure messages (missing file, invalid JSON, not an array,
invalid entry), all of which end in `sys.exit(1)`. -/
def load_apps_config (path : String) (files : String → Option (List Char)) :
    Option (List Json) :=
  match files path with
  | none => none
  | some content =>
    match parseJson content with
    | some (Json.arr apps) => if apps.all validApp then some apps else none
    | _ => none

/-- The base64 build-argument value computed in `build`:
`b64encode(json.dumps(apps_config, indent=2).encode()).decode()`. -/
def encodeAppsJson (apps : List Json) : String :=
  String.mk (b64encode (utf8Encode (dumpVal 0 (Json.arr apps))))

/-- `_get_build_args`: the ordered build-argument mapping (a Python dict
preserves insertion order; `update` appends the five custom-only keys). -/
def get_build_args (c : Config) : List (String × String) :=
  [("FRAPPE_PATH", c.frappe_path), ("FRAPPE_BRANCH", c.frappe_branch),
   ("APPS_JSON_BASE64", c.apps_json_base64)] ++
  (if c.build_method = "custom" then
    [("PYTHON_VERSION", c.python_version), ("NODE_VERSION", c.node_version),
     ("DEBIAN_BASE", c.debian_base), ("WKHTMLTOPDF_VERSION", c.wkhtmltopdf_version),
     ("WKHTMLTOPDF_DISTRO", c.wkhtmltopdf_distro)]
  else [])

/-- `_build_docker_command`: the token list of the composed command. -/
def build_docker_command (c : Config) : List String :=
  ["docker", "build"] ++
  ((get_build_args c).flatMap (fun kv => ["--build-arg", kv.1 ++ "=" ++ kv.2])) ++
  ["--tag", c.tag] ++
  ["--file", "images/" ++ c.build_method ++ "/Containerfile"] ++
  ["."]

/-- Blocking boundaries at which a user interrupt (KeyboardInterrupt) can
fire in this model. -/
inductive InterruptPoint where
  | duringInteractive : InterruptPoint
  | duringPrereq : InterruptPoint
  | duringAppsLoad : InterruptPoint
  | duringBuildSubprocess : InterruptPoint
deriving DecidableEq

/-- The externally observable world of one invocation: parsed arguments,
environment, interactive answers, file contents (also used for existence
checks), results of the docker prerequisite subprocesses, the exit code
the build subprocess would return, and the boundary (if any) at which the
user interrupts. -/
structure World where
  args : Args
  env : String → Option String
  answers : InteractiveAnswers
  files : String → Option (List Char)
  dockerVersionOk : Bool
  dockerInfoOk : Bool
  buildExitCode : Nat
  interrupt : Option InterruptPoint

/-- Observable outcome of a run: process exit code, whether a build
subprocess was spawned, the dry-run command printed (if any), the
success flag handed to `_print_build_summary` (`none` when quiet mode
suppresses the summary or the run exits before it), and whether the
`finally` cleanup ran. -/
structure Outcome where
  exitCode : Nat
  buildSpawned : Bool
  dryRunPrinted : Option (List String)
  summaryShown : Option Bool
  cleanupRan : Bool

/-- `_validate_prerequisites`: docker version check, docker daemon check,
and existence of the two Containerfiles (both checked regardless of the
chosen build method). -/
def validate_prerequisites (w : World) : Bool :=
  w.dockerVersionOk && w.dockerInfoOk &&
  (w.files ("images/layered/Containerfile")).isSome &&
  (w.files ("images/custom/Containerfile")).isSome

/-- The configuration after `_load_config` and, when interactive mode is
requested, `_interactive_config` (which runs after the environment
overrides and overwrites their values). -/
def resolvedConfig (w : World) : Config :=
  let c := load_config w.args w.env
  if c.interactive then interactive_config c w.answers else c

/-- The control flow of `build` after configuration resolution. -/
def buildAfterConfig (w : World) (c : Config) : Outcome :=
  if w.interrupt = some InterruptPoint.duringPrereq then
    { exitCode := 130, buildSpawned := false, dryRunPrinted := none,
      summaryShown := none, cleanupRan := true }
  else if validate_prerequisites w = false then
    { exitCode := 1, buildSpawned := false, dryRunPrinted := none,
      summaryShown := none, cleanupRan := true }
  else if w.interrupt = some InterruptPoint.duringAppsLoad then
    { exitCode := 130, buildSpawned := false, dryRunPrinted := none,
      summaryShown := none, cleanupRan := true }
  else
    match load_apps_config c.apps_file w.files with
    | none =>
      { exitCode := 1, buildSpawned := false, dryRunPrinted := none,
        summaryShown := none, cleanupRan := true }
    | some apps =>
      let c := { c with apps_json_base64 := encodeAppsJson apps }
      let cmd := build_docker_command c
      if c.dry_run then
        { exitCode := 0, buildSpawned := false, dryRunPrinted := some cmd,
          summaryShown := if c.quiet then none else some true, cleanupRan := true }
      else
        let success :=
          if w.interrupt = some InterruptPoint.duringBuildSubprocess then false
          else w.buildExitCode = 0
        { exitCode := if success then 0 else 1, buildSpawned := true,
          dryRunPrinted := none,
          summaryShown := if c.quiet then none else some success, cleanupRan := true }

/-- The top-level `build` method: resolve configuration (interactive
prompts run after the environment overrides), validate prerequisites,
load and validate the apps file, encode it, compose the command, execute
(or dry-run) it, report, and exit; a KeyboardInterrupt reaching the
top-level handler exits with 130, and cleanup always runs. -/
def build (w : World) : Outcome :=
  let c := load_config w.args w.env
  if c.interactive then
    if w.interrupt = some InterruptPoint.duringInteractive then
      { exitCode := 130, buildSpawned := false, dryRunPrinted := none,
        summaryShown := none, cleanupRan := true }
    else buildAfterConfig w (interactive_config c w.answers)
  else buildAfterConfig w c

theorem load_config_flags (a : Args) (env : String → Option String) :
    (load_config a env).interactive = a.interactive ∧
    (load_config a env).dry_run = a.dry_run ∧
    (load_config a env).quiet = a.quiet := by
  unfold load_config
  cases env ("FRAPPE_PATH") <;> cases env ("FRAPPE_BRANCH") <;>
    cases env ("PYTHON_VERSION") <;> cases env ("NODE_VERSION") <;>
    cases env ("DOCKER_TAG") <;> cases env ("APPS_FILE") <;> simp

theorem interactive_config_flags (c : Config) (a : InteractiveAnswers) :
    (interactive_config c a).interactive = c.interactive ∧
    (interactive_config c a).dry_run = c.dry_run ∧
    (interactive_config c a).quiet = c.quiet := by
  unfold interactive_config
  split_ifs <;> simp

theorem resolvedConfig_flags (w : World) :
    (resolvedConfig w).dry_run = w.args.dry_run ∧
    (resolvedConfig w).quiet = w.args.quiet := by
  obtain ⟨h1, h2, h3⟩ := load_config_flags w.args w.env
  obtain ⟨g1, g2, g3⟩ := interactive_config_flags (load_config w.args w.env) w.answers
  by_cases hI : (load_config w.args w.env).interactive = true
  · constructor <;> simp [resolvedConfig, hI, g2, h2, g3, h3]
  · constructor <;> simp [resolvedConfig, hI, h2, h3]

/-- C1: for every apps list, base64-decoding the `APPS_JSON_BASE64` value
produced by the build flow yields exactly the UTF-8 bytes of the
2-space-indented JSON serialisation (`dumpVal 0`, the model of
`json.dumps(·, indent=2)`, a function of the list, hence deterministic),
and parsing that serialisation as JSON yields a structure deep-equal to
the original list. -/
theorem C1_apps_json_roundtrip (apps : List Json) :
    b64decode (encodeAppsJson apps).data =
      some (utf8Encode (dumpVal 0 (Json.arr apps))) ∧
    parseJson (dumpVal 0 (Json.arr apps)) = some (Json.arr apps) := by
  constructor
  · exact b64_roundtrip _ (utf8Encode_lt_256 _)
  · exact parseJson_dumpVal (Json.arr apps)

theorem flatMap_pair_split {α β : Type} (f : α → List β) :
    ∀ (l : List α) (x : α), x ∈ l → ∃ l1 l2, l.flatMap f = l1 ++ (f x ++ l2) := by
  intro l
  induction l with
  | nil => intro x h; simp at h
  | cons a as ih =>
    intro x h
    rcases List.mem_cons.mp h with rfl | h2
    · exact ⟨[], as.flatMap f, by simp⟩
    · obtain ⟨l1, l2, he⟩ := ih x h2
      exact ⟨f a ++ l1, l2, by simp [he]⟩

/-- C2: for every configuration the composed docker command has
`--build-arg` entries exactly for the keys of `_get_build_args`: always
`FRAPPE_PATH`, `FRAPPE_BRANCH` and `APPS_JSON_BASE64`; the five
version/base keys additionally appear exactly when the build method is
`custom`, and never for `layered`.  Every argument pair appears as the
adjacent tokens `--build-arg KEY=VALUE` in the command. -/
theorem C2_build_args (c : Config) :
    (c.build_method = "custom" →
      (get_build_args c).map Prod.fst =
        ["FRAPPE_PATH", "FRAPPE_BRANCH", "APPS_JSON_BASE64", "PYTHON_VERSION",
         "NODE_VERSION", "DEBIAN_BASE", "WKHTMLTOPDF_VERSION", "WKHTMLTOPDF_DISTRO"]) ∧
    (c.build_method ≠ "custom" →
      (get_build_args c).map Prod.fst =
        ["FRAPPE_PATH", "FRAPPE_BRANCH", "APPS_JSON_BASE64"]) ∧
    (c.build_method = "layered" →
      ∀ k ∈ (["PYTHON_VERSION", "NODE_VERSION", "DEBIAN_BASE", "WKHTMLTOPDF_VERSION",
        "WKHTMLTOPDF_DISTRO"] : List String), k ∉ (get_build_args c).map Prod.fst) ∧
    (∀ kv ∈ get_build_args c, ∃ l r, build_docker_command c =
      l ++ ("--build-arg" :: (kv.1 ++ "=" ++ kv.2) :: r)) := by
  refine ⟨?_, ?_, ?_, ?_⟩
  · intro hc
    simp [get_build_args, hc]
  · intro hc
    simp [get_build_args, hc]
  · intro hl k hk
    have hnc : ¬(c.build_method = "custom") := by rw [hl]; decide
    simp only [List.mem_cons, List.mem_singleton] at hk
    simp only [get_build_args, hnc, if_false, List.append_nil, List.map_cons,
      List.map_nil]
    rcases hk with rfl | rfl | rfl | rfl | rfl | hk
    · decide
    · decide
    · decide
    · decide
    · decide
    · simp at hk
  · intro kv hkv
    obtain ⟨l1, l2, he⟩ :=
      flatMap_pair_split (fun kv : String × String => ["--build-arg", kv.1 ++ "=" ++ kv.2])
        (get_build_args c) kv hkv
    refine ⟨["docker", "build"] ++ l1,
      l2 ++ (["--tag", c.tag] ++ (["--file", "images/" ++ c.build_method ++
        "/Containerfile"] ++ ["."])), ?_⟩
    simp [build_docker_command, he]

/-- A configuration with the `custom` build method, for the witness. -/
def customConfig : Config :=
  { apps_file := "apps.json", tag := "t:1", build_method := "custom",
    frappe_path := "p", frappe_branch := "b", python_version := "3.11.6",
    node_version := "20.19.2", debian_base := "bookworm",
    wkhtmltopdf_version := "0.12.6.1-3", wkhtmltopdf_distro := "bookworm",
    interactive := false, dry_run := false, verbose := false, quiet := false,
    apps_json_base64 := "W10=" }

/-- A configuration with the `layered` build method, for the witness. -/
def layeredConfig : Config := { customConfig with build_method := "layered" }

theorem C2_build_args_witness :
    (get_build_args customConfig).map Prod.fst =
      ["FRAPPE_PATH", "FRAPPE_BRANCH", "APPS_JSON_BASE64", "PYTHON_VERSION",
       "NODE_VERSION", "DEBIAN_BASE", "WKHTMLTOPDF_VERSION", "WKHTMLTOPDF_DISTRO"] ∧
    (get_build_args layeredConfig).map Prod.fst =
      ["FRAPPE_PATH", "FRAPPE_BRANCH", "APPS_JSON_BASE64"] :=
  ⟨(C2_build_args customConfig).1 rfl,
   (C2_build_args layeredConfig).2.1 (by decide)⟩

/-- World refuting C3: environment sets `DOCKER_TAG`, interactive mode is
on and the tag prompt is answered. -/
def c3World : World :=
  { args := { interactive := true, tag := "baz:qux" },
    env := fun k => if k = "DOCKER_TAG" then some ("foo:bar") else none,
    answers := { tag := "custom-tag" },
    files := fun _ => none,
    dockerVersionOk := true, dockerInfoOk := true, buildExitCode := 0,
    interrupt := none }

/-- C3 counterexample: with `DOCKER_TAG=foo:bar` in the environment and an
interactive tag answer, the final resolved tag is the interactive answer,
not the environment value — the claim that the environment variable wins
over the interactive answer is false. -/
theorem C3_counterexample :
    (resolvedConfig c3World).tag = "custom-tag" ∧
    ("custom-tag" : String) ≠ "foo:bar" := ⟨rfl, by decide⟩

/-- C3 (amended): interactive answers are collected after the
environment-variable overrides (which `_load_config` applies), and they
overwrite the overridden entries, so for every config key that has both
an interactive answer and a matching environment variable, the
interactive answer (or its prompt default) is the value in the final
resolved configuration. -/
theorem C3_amended_interactive_overrides_env (w : World)
    (h : w.args.interactive = true) :
    (resolvedConfig w).tag =
      (if w.answers.tag = "" then "frappe_custom:latest" else w.answers.tag) ∧
    (resolvedConfig w).apps_file =
      (if w.answers.apps_file = "" then "apps.json" else w.answers.apps_file) ∧
    (resolvedConfig w).frappe_branch =
      (if w.answers.frappe_branch = "" then "version-15" else w.answers.frappe_branch) ∧
    (resolvedConfig w).build_method =
      (if w.answers.build_method_choice = "2" then "custom" else "layered") ∧
    (w.answers.build_method_choice = "2" →
      (resolvedConfig w).python_version =
        (if w.answers.python_version = "" then "3.11.6" else w.answers.python_version) ∧
      (resolvedConfig w).node_version =
        (if w.answers.node_version = "" then "20.19.2" else w.answers.node_version)) := by
  have hint := (load_config_flags w.args w.env).1
  have hI : (load_config w.args w.env).interactive = true := by rw [hint, h]
  simp only [resolvedConfig, hI, if_true]
  unfold interactive_config
  by_cases hc : w.answers.build_method_choice = "2"
  · simp [hc]
  · simp [hc]

/-- World for the second half of the C3 witness: interactive mode chooses
the custom method and answers the Python-version prompt while
`PYTHON_VERSION` is also set in the environment. -/
def c3bWorld : World :=
  { c3World with
    env := fun k => if k = "DOCKER_TAG" then some ("foo:bar")
      else if k = "PYTHON_VERSION" then some ("3.9.9") else none,
    answers := { tag := "custom-tag", build_method_choice := "2",
                 python_version := "3.12.0" } }

theorem C3_amended_witness :
    (resolvedConfig c3World).tag = "custom-tag" ∧
    (resolvedConfig c3bWorld).python_version = "3.12.0" := by
  constructor
  · have h := (C3_amended_interactive_overrides_env c3World rfl).1
    rw [if_neg (by decide)] at h
    exact h
  · have h := ((C3_amended_interactive_overrides_env c3bWorld rfl).2.2.2.2 rfl).1
    rw [if_neg (by decide)] at h
    exact h

/-- Characterisation of `_load_config`: each of the six recognised
environment variables, when present, replaces the corresponding CLI
value; all other entries come from the arguments. -/
theorem load_config_eq (a : Args) (env : String → Option String) :
    load_config a env = {
      apps_file := (env ("APPS_FILE")).getD a.apps_file,
      tag := (env ("DOCKER_TAG")).getD a.tag,
      build_method := a.build_method,
      frappe_path := (env ("FRAPPE_PATH")).getD a.frappe_path,
      frappe_branch := (env ("FRAPPE_BRANCH")).getD a.frappe_branch,
      python_version := (env ("PYTHON_VERSION")).getD a.python_version,
      node_version := (env ("NODE_VERSION")).getD a.node_version,
      debian_base := a.debian_base,
      wkhtmltopdf_version := a.wkhtmltopdf_version,
      wkhtmltopdf_distro := a.wkhtmltopdf_distro,
      interactive := a.interactive, dry_run := a.dry_run,
      verbose := a.verbose, quiet := a.quiet,
      apps_json_base64 := "" } := by
  unfold load_config
  cases env ("FRAPPE_PATH") <;> cases env ("FRAPPE_BRANCH") <;>
    cases env ("PYTHON_VERSION") <;> cases env ("NODE_VERSION") <;>
    cases env ("DOCKER_TAG") <;> cases env ("APPS_FILE") <;> rfl

/-- C4: whenever a recognised environment variable is set, its value (not
the CLI flag's) is what `_load_config` leaves in the configuration, for
each of the six recognised variables. -/
theorem C4_env_overrides_cli (a : Args) (env : String → Option String) :
    (∀ v, env ("DOCKER_TAG") = some v → (load_config a env).tag = v) ∧
    (∀ v, env ("FRAPPE_PATH") = some v → (load_config a env).frappe_path = v) ∧
    (∀ v, env ("FRAPPE_BRANCH") = some v → (load_config a env).frappe_branch = v) ∧
    (∀ v, env ("PYTHON_VERSION") = some v → (load_config a env).python_version = v) ∧
    (∀ v, env ("NODE_VERSION") = some v → (load_config a env).node_version = v) ∧
    (∀ v, env ("APPS_FILE") = some v → (load_config a env).apps_file = v) := by
  refine ⟨?_, ?_, ?_, ?_, ?_, ?_⟩ <;> intro v hv <;> rw [load_config_eq] <;>
    simp [hv]

/-- Arguments for the C4 witness, with an explicit CLI tag. -/
def c4Args : Args := { tag := "baz:qux" }

/-- Environment for the C4 witness: only `DOCKER_TAG` is set. -/
def c4Env : String → Option String :=
  fun k => if k = "DOCKER_TAG" then some ("foo:bar") else none

theorem C4_env_overrides_cli_witness : (load_config c4Args c4Env).tag = "foo:bar" :=
  (C4_env_overrides_cli c4Args c4Env).1 ("foo:bar") rfl

theorem buildAfterConfig_invalid (w : World) (c : Config)
    (h : load_apps_config c.apps_file w.files = none) :
    (buildAfterConfig w c).exitCode ≠ 0 ∧ (buildAfterConfig w c).buildSpawned = false := by
  unfold buildAfterConfig
  split_ifs <;> simp [h]

/-- C5: whenever the apps file named by the resolved configuration fails
to load (missing file, invalid JSON, not an array, or an entry missing
`url`/`branch`), the process exits with a non-zero status and no build
subprocess is ever spawned. -/
theorem C5_invalid_apps_no_build (w : World)
    (h : load_apps_config (resolvedConfig w).apps_file w.files = none) :
    (build w).exitCode ≠ 0 ∧ (build w).buildSpawned = false := by
  unfold build
  by_cases hI : (load_config w.args w.env).interactive = true
  · simp only [hI, if_true]
    by_cases hK : w.interrupt = some InterruptPoint.duringInteractive
    · simp [hK]
    · simp only [hK, if_false]
      refine buildAfterConfig_invalid w _ ?_
      rw [show interactive_config (load_config w.args w.env) w.answers =
        resolvedConfig w from by simp [resolvedConfig, hI]]
      exact h
  · simp only [hI, if_false]
    refine buildAfterConfig_invalid w _ ?_
    rw [show load_config w.args w.env = resolvedConfig w from by
      simp [resolvedConfig, hI]]
    exact h

/-- World for the C5 witness: prerequisites pass but the apps file is
missing. -/
def c5World : World :=
  { args := {},
    env := fun _ => none,
    answers := {},
    files := fun p => if p = "images/layered/Containerfile" then some []
      else if p = "images/custom/Containerfile" then some [] else none,
    dockerVersionOk := true, dockerInfoOk := true, buildExitCode := 0,
    interrupt := none }

theorem C5_invalid_apps_no_build_witness :
    (build c5World).exitCode ≠ 0 ∧ (build c5World).buildSpawned = false :=
  C5_invalid_apps_no_build c5World rfl

/-- World refuting C6: a fully valid run interrupted while the build
subprocess is executing. -/
def c6World : World :=
  { args := {},
    env := fun _ => none,
    answers := {},
    files := fun p => if p = "images/layered/Containerfile" then some []
      else if p = "images/custom/Containerfile" then some []
      else if p = "apps.json" then some ['[', ']'] else none,
    dockerVersionOk := true, dockerInfoOk := true, buildExitCode := 0,
    interrupt := some InterruptPoint.duringBuildSubprocess }

/-- C6 counterexample: a KeyboardInterrupt while the build subprocess is
executing is caught inside `_execute_build` and turned into a build
failure, so the process exits with status 1, not 130 — the claim that
every interruption exits with 130 is false. -/
theorem C6_counterexample :
    (build c6World).exitCode = 1 ∧ (1 : Nat) ≠ 130 := ⟨rfl, by decide⟩

/-- Outcome of a run cut short by an interrupt reaching the top-level
handler. -/
def interruptOutcome : Outcome :=
  { exitCode := 130, buildSpawned := false, dryRunPrinted := none,
    summaryShown := none, cleanupRan := true }

theorem build_eq (w : World) :
    build w = if w.args.interactive = true ∧
        w.interrupt = some InterruptPoint.duringInteractive
      then interruptOutcome
      else buildAfterConfig w (resolvedConfig w) := by
  have hint := (load_config_flags w.args w.env).1
  unfold build resolvedConfig
  by_cases hI : (load_config w.args w.env).interactive = true
  · have hAI : w.args.interactive = true := by rw [← hint]; exact hI
    by_cases hk : w.interrupt = some InterruptPoint.duringInteractive <;>
      simp [hI, hAI, hk, interruptOutcome]
  · have hAI : ¬(w.args.interactive = true) := by rw [← hint]; exact hI
    simp [hI, hAI]

theorem buildAfterConfig_interrupted_build (w : World) (c : Config) (apps : List Json)
    (hk : w.interrupt = some InterruptPoint.duringBuildSubprocess)
    (hpre : validate_prerequisites w = true)
    (happs : load_apps_config c.apps_file w.files = some apps)
    (hdry : c.dry_run = false) :
    (buildAfterConfig w c).exitCode = 1 ∧ (buildAfterConfig w c).buildSpawned = true := by
  unfold buildAfterConfig
  simp [hk, hpre, happs, hdry]

/-- C6 (amended): a KeyboardInterrupt at a blocking boundary before the
build subprocess (interactive prompts, the prerequisite subprocess
checks, reading the apps file) propagates to the top-level handler and
the process exits with status 130; an interrupt while the build
subprocess is executing is caught inside `_execute_build`, reported as a
build interruption, and flows into the ordinary failure path with exit
status 1 (with the build subprocess already spawned). -/
theorem C6_amended_interrupt_exits (w : World) :
    (w.interrupt = some InterruptPoint.duringPrereq → (build w).exitCode = 130) ∧
    (w.interrupt = some InterruptPoint.duringInteractive → w.args.interactive = true →
      (build w).exitCode = 130) ∧
    (w.interrupt = some InterruptPoint.duringAppsLoad →
      validate_prerequisites w = true → (build w).exitCode = 130) ∧
    (w.interrupt = some InterruptPoint.duringBuildSubprocess →
      validate_prerequisites w = true →
      ∀ apps, load_apps_config (resolvedConfig w).apps_file w.files = some apps →
      (resolvedConfig w).dry_run = false →
      (build w).exitCode = 1 ∧ (build w).buildSpawned = true) := by
  refine ⟨?_, ?_, ?_, ?_⟩
  · intro hk
    rw [build_eq, if_neg (by simp [hk])]
    unfold buildAfterConfig
    simp [hk]
  · intro hk hi
    rw [build_eq, if_pos ⟨hi, hk⟩]
    rfl
  · intro hk hpre
    rw [build_eq, if_neg (by simp [hk])]
    unfold buildAfterConfig
    simp [hk, hpre]
  · intro hk hpre apps happs hdry
    rw [build_eq, if_neg (by simp [hk])]
    exact buildAfterConfig_interrupted_build w _ apps hk hpre happs hdry

/-- World for the C6 witness: same valid run, interrupted during the
prerequisite checks. -/
def c6bWorld : World := { c6World with interrupt := some InterruptPoint.duringPrereq }

theorem C6_amended_interrupt_exits_witness :
    (build c6bWorld).exitCode = 130 ∧
    ((build c6World).exitCode = 1 ∧ (build c6World).buildSpawned = true) :=
  ⟨(C6_amended_interrupt_exits c6bWorld).1 rfl,
   (C6_amended_interrupt_exits c6World).2.2.2 rfl rfl [] rfl rfl⟩

theorem buildAfterConfig_dry (w : World) (c : Config) (apps : List Json)
    (hni : w.interrupt = none)
    (hpre : validate_prerequisites w = true)
    (happs : load_apps_config c.apps_file w.files = some apps)
    (hdry : c.dry_run = true) :
    buildAfterConfig w c =
      { exitCode := 0, buildSpawned := false,
        dryRunPrinted := some (build_docker_command
          { c with apps_json_base64 := encodeAppsJson apps }),
        summaryShown := if c.quiet then none else some true, cleanupRan := true } := by
  unfold buildAfterConfig
  simp [hni, hpre, happs, hdry]

/-- C7: in a dry run that reaches the execution step (prerequisites pass,
apps file valid, not interrupted), no build subprocess is spawned, the
would-be command is printed, and the process exits with status 0. -/
theorem C7_dry_run_no_subprocess (w : World) (apps : List Json)
    (hni : w.interrupt = none)
    (hpre : validate_prerequisites w = true)
    (happs : load_apps_config (resolvedConfig w).apps_file w.files = some apps)
    (hdry : (resolvedConfig w).dry_run = true) :
    (build w).exitCode = 0 ∧ (build w).buildSpawned = false ∧
    (build w).dryRunPrinted = some (build_docker_command
      { resolvedConfig w with apps_json_base64 := encodeAppsJson apps }) := by
  rw [build_eq, if_neg (by simp [hni])]
  rw [buildAfterConfig_dry w _ apps hni hpre happs hdry]
  exact ⟨rfl, rfl, rfl⟩

/-- World for the C7 witness: a valid dry run. -/
def c7World : World :=
  { args := { dry_run := true },
    env := fun _ => none,
    answers := {},
    files := fun p => if p = "images/layered/Containerfile" then some []
      else if p = "images/custom/Containerfile" then some []
      else if p = "apps.json" then some ['[', ']'] else none,
    dockerVersionOk := true, dockerInfoOk := true, buildExitCode := 0,
    interrupt := none }

theorem C7_dry_run_no_subprocess_witness :
    (build c7World).exitCode = 0 ∧ (build c7World).buildSpawned = false ∧
    (build c7World).dryRunPrinted = some (build_docker_command
      { resolvedConfig c7World with apps_json_base64 := encodeAppsJson [] }) :=
  C7_dry_run_no_subprocess c7World [] rfl rfl rfl rfl

theorem buildAfterConfig_fail (w : World) (c : Config) (apps : List Json)
    (hni : w.interrupt = none)
    (hpre : validate_prerequisites w = true)
    (happs : load_apps_config c.apps_file w.files = some apps)
    (hdry : c.dry_run = false)
    (hexit : w.buildExitCode ≠ 0) :
    (buildAfterConfig w c).exitCode = 1 ∧ (buildAfterConfig w c).cleanupRan = true ∧
    (c.quiet = false → (buildAfterConfig w c).summaryShown = some false) := by
  unfold buildAfterConfig
  simp [hni, hpre, happs, hdry, hexit]

/-- C8 counterexample world: a quiet run whose build subprocess exits
with code 3. -/
def c8World : World :=
  { args := { quiet := true },
    env := fun _ => none,
    answers := {},
    files := fun p => if p = "images/layered/Containerfile" then some []
      else if p = "images/custom/Containerfile" then some []
      else if p = "apps.json" then some ['[', ']'] else none,
    dockerVersionOk := true, dockerInfoOk := true, buildExitCode := 3,
    interrupt := none }

/-- C8 counterexample: with `--quiet`, a build exiting with code 3 still
gives exit code 1 and cleanup, but no summary at all is reported — the
claim that the summary reports FAILED on every such run is false. -/
theorem C8_counterexample :
    (build c8World).summaryShown = none ∧ (build c8World).exitCode = 1 ∧
    (build c8World).cleanupRan = true := ⟨rfl, rfl, rfl⟩

/-- C8 (amended): when the build subprocess exits with a non-zero code
(such as 3), the process exits with code 1 and the cleanup step still
runs; the summary reports FAILED whenever quiet mode does not suppress
the summary. -/
theorem C8_amended_build_failure (w : World) (apps : List Json)
    (hni : w.interrupt = none)
    (hpre : validate_prerequisites w = true)
    (happs : load_apps_config (resolvedConfig w).apps_file w.files = some apps)
    (hdry : (resolvedConfig w).dry_run = false)
    (hexit : w.buildExitCode ≠ 0) :
    (build w).exitCode = 1 ∧ (build w).cleanupRan = true ∧
    ((resolvedConfig w).quiet = false → (build w).summaryShown = some false) := by
  rw [build_eq, if_neg (by simp [hni])]
  exact buildAfterConfig_fail w _ apps hni hpre happs hdry hexit

/-- World for the C8 witness: the same failing build without quiet mode. -/
def c8bWorld : World := { c8World with args := {} }

theorem C8_amended_build_failure_witness :
    (build c8bWorld).exitCode = 1 ∧ (build c8bWorld).cleanupRan = true ∧
    (build c8bWorld).summaryShown = some false :=
  ⟨(C8_amended_build_failure c8bWorld [] rfl rfl rfl rfl (by decide)).1,
   (C8_amended_build_failure c8bWorld [] rfl rfl rfl rfl (by decide)).2.1,
   (C8_amended_build_failure c8bWorld [] rfl rfl rfl rfl (by decide)).2.2 rfl⟩

/-- Value of a key in an object's field list (first occurrence). -/
def lookupKey (fs : List (List Char × Json)) (k : List Char) : Option Json :=
  (fs.find? (fun p => p.1 = k)).map Prod.snd

/-- An app entry with an empty-string `url` and a non-string `branch`. -/
def badApp : Json := Json.obj [(urlKey, Json.str []), (branchKey, Json.num 5)]

/-- C9 counterexample: `_load_apps_config` only checks key presence, so
an entry whose `url` is the empty string and whose `branch` is a number
passes validation — the claim that validated entries have non-empty
string `url`/`branch` values is false. -/
theorem C9_counterexample :
    validApp badApp = true ∧
    lookupKey [(urlKey, Json.str []), (branchKey, Json.num 5)] urlKey =
      some (Json.str []) ∧
    lookupKey [(urlKey, Json.str []), (branchKey, Json.num 5)] branchKey =
      some (Json.num 5) := ⟨rfl, rfl, rfl⟩

/-- C9 (amended): every app entry that passes validation is a JSON object
containing `url` and `branch` keys; validation requires nothing of the
values (they may be empty strings or non-strings). -/
theorem C9_amended_presence_only (apps : List Json) (h : apps.all validApp = true) :
    ∀ e ∈ apps, ∃ fs, e = Json.obj fs ∧
      hasKey fs urlKey = true ∧ hasKey fs branchKey = true := by
  intro e he
  have hv : validApp e = true := by
    rw [List.all_eq_true] at h
    exact h e he
  cases e with
  | obj fs =>
    simp only [validApp, Bool.and_eq_true] at hv
    exact ⟨fs, rfl, hv.1, hv.2⟩
  | null => simp [validApp] at hv
  | bool b => simp [validApp] at hv
  | num n => simp [validApp] at hv
  | str s => simp [validApp] at hv
  | arr xs => simp [validApp] at hv

/-- A well-formed single-entry apps list for the C9 witness. -/
def apps9 : List Json := [Json.obj [(urlKey, Json.str ['a']), (branchKey, Json.str ['b'])]]

theorem C9_amended_presence_only_witness :
    ∃ fs, Json.obj [(urlKey, Json.str ['a']), (branchKey, Json.str ['b'])] =
      Json.obj fs ∧ hasKey fs urlKey = true ∧ hasKey fs branchKey = true :=
  C9_amended_presence_only apps9 rfl
    (Json.obj [(urlKey, Json.str ['a']), (branchKey, Json.str ['b'])]) (by simp [apps9])

/-- C10: dry-run mode bypasses no checks — with the dry-run flag set, a
failing prerequisite check or a failing apps-file validation still makes
the run exit with status 1, without printing the would-be command and
without spawning a build subprocess. -/
theorem C10_dry_run_still_validates (w : World)
    (hni : w.interrupt = none) (hdry : w.args.dry_run = true)
    (h : validate_prerequisites w = false ∨
      load_apps_config (resolvedConfig w).apps_file w.files = none) :
    (build w).exitCode = 1 ∧ (build w).dryRunPrinted = none ∧
    (build w).buildSpawned = false := by
  rw [build_eq, if_neg (by simp [hni])]
  unfold buildAfterConfig
  rcases h with h | h
  · simp [hni, h]
  · by_cases hpre : validate_prerequisites w = false
    · simp [hni, hpre]
    · simp [hni, hpre, h]

/-- World for the C10 witness: a dry run with a missing custom
Containerfile. -/
def c10World : World :=
  { args := { dry_run := true },
    env := fun _ => none,
    answers := {},
    files := fun p => if p = "images/layered/Containerfile" then some []
      else if p = "apps.json" then some ['[', ']'] else none,
    dockerVersionOk := true, dockerInfoOk := true, buildExitCode := 0,
    interrupt := none }

theorem C10_dry_run_still_validates_witness :
    (build c10World).exitCode = 1 ∧ (build c10World).dryRunPrinted = none ∧
    (build c10World).buildSpawned = false :=
  C10_dry_run_still_validates c10World rfl rfl (Or.inl rfl)
